import Mathlib

/-!
Shallow embedding of the plan-gated advanced search and investment-ledger
subsystem of the `investment_backend` repository.

The embedding follows the TypeScript source:
* `src/src/config/planFeatures.ts` — plan feature policy (static table,
  `hasFeatureAccess`, `getPlanFeatures`, `getMinimumPlanForFeature`);
* `src/src/services/projectService.ts` — `ProjectService.getAllProjects`,
  `ProjectService.advancedSearch`, `ProjectService.getPremiumProjects`, and
  the `InvestmentController.createInvestment` / `cancelInvestment`
  operations concatenated in the same file;
* `src/src/controllers/projectController.ts` — the premium-listing plan gate.

Modelling conventions: JavaScript numbers are modelled as `ℚ` (monetary
amounts, ROI percentages, millisecond timestamps); document ids as `Nat`;
MongoDB lookups (`findById`) as `List.find?` over an explicit store;
`document.save()` as an id-keyed functional update of the store; thrown
`AppError`s as the `Except.error` branch of `Except AppError α`.
-/

/-- HTTP-level application error: message and status code, mirroring the
`AppError` class of `src/src/middlewares/errorHandler.ts`. -/
structure AppError where
  message : String
  statusCode : Nat
deriving Repr, DecidableEq

/-! ## Plan feature policy (`src/src/config/planFeatures.ts`) -/

/-- The six boolean capability flags of `PlanFeatures.searchFilters`. -/
inductive Capability where
  | basicFilters
  | roiRange
  | amountRange
  | multipleCategories
  | advancedSort
  | durationFilter
deriving Repr, DecidableEq

/-- The `searchFilters` record of a plan. -/
structure SearchFilters where
  basicFilters : Bool
  roiRange : Bool
  amountRange : Bool
  multipleCategories : Bool
  advancedSort : Bool
  durationFilter : Bool
deriving Repr, DecidableEq

/-- Select one capability flag out of a `searchFilters` record (the
`plan.searchFilters[feature]` access of the source). -/
def SearchFilters.get (s : SearchFilters) : Capability → Bool
  | .basicFilters => s.basicFilters
  | .roiRange => s.roiRange
  | .amountRange => s.amountRange
  | .multipleCategories => s.multipleCategories
  | .advancedSort => s.advancedSort
  | .durationFilter => s.durationFilter

/-- The `limits` record of a plan (`-1` means unlimited, hence `Int`). -/
structure PlanLimits where
  projectsPerMonth : Int
  simulationsPerMonth : Int
  savedSearches : Int
deriving Repr, DecidableEq

/-- One entry of the `PLAN_FEATURES` table. -/
structure PlanFeatures where
  name : String
  searchFilters : SearchFilters
  limits : PlanLimits
deriving Repr, DecidableEq

/-- The `free` tier entry of `PLAN_FEATURES`. -/
def freePlanFeatures : PlanFeatures :=
  { name := "Free"
    searchFilters :=
      { basicFilters := true, roiRange := false, amountRange := false
        multipleCategories := false, advancedSort := false, durationFilter := false }
    limits := { projectsPerMonth := 10, simulationsPerMonth := 5, savedSearches := 0 } }

/-- The `basic` tier entry of `PLAN_FEATURES`. -/
def basicPlanFeatures : PlanFeatures :=
  { name := "Basic"
    searchFilters :=
      { basicFilters := true, roiRange := true, amountRange := false
        multipleCategories := false, advancedSort := false, durationFilter := false }
    limits := { projectsPerMonth := 50, simulationsPerMonth := 20, savedSearches := 3 } }

/-- The `plus` tier entry of `PLAN_FEATURES`. -/
def plusPlanFeatures : PlanFeatures :=
  { name := "Plus"
    searchFilters :=
      { basicFilters := true, roiRange := true, amountRange := true
        multipleCategories := true, advancedSort := false, durationFilter := true }
    limits := { projectsPerMonth := 200, simulationsPerMonth := 100, savedSearches := 10 } }

/-- The `premium` tier entry of `PLAN_FEATURES`. -/
def premiumPlanFeatures : PlanFeatures :=
  { name := "Premium"
    searchFilters :=
      { basicFilters := true, roiRange := true, amountRange := true
        multipleCategories := true, advancedSort := true, durationFilter := true }
    limits := { projectsPerMonth := -1, simulationsPerMonth := -1, savedSearches := -1 } }

/-- The `PLAN_FEATURES` record viewed as a map from plan key to own entry;
a key that is not an own property is `none`.  This covers own-property
lookup only: the JavaScript bracket read also consults `Object.prototype`,
which `planFeaturesLookup` below models in full.  The plan keys reaching
the search gates come from `req.user.planKey`, a subscription tier. -/
def PLAN_FEATURES (planKey : String) : Option PlanFeatures :=
  if planKey = "free" then some freePlanFeatures
  else if planKey = "basic" then some basicPlanFeatures
  else if planKey = "plus" then some plusPlanFeatures
  else if planKey = "premium" then some premiumPlanFeatures
  else none

/-- The `getPlanFeatures`: `PLAN_FEATURES[planKey] || PLAN_FEATURES.free`. -/
def getPlanFeatures (planKey : String) : PlanFeatures :=
  (PLAN_FEATURES planKey).getD freePlanFeatures

/-- The `hasFeatureAccess`: look the plan up (falling back to `free`) and read
the requested capability flag. -/
def hasFeatureAccess (planKey : String) (feature : Capability) : Bool :=
  ((PLAN_FEATURES planKey).getD freePlanFeatures).searchFilters.get feature

/-- The `getMinimumPlanForFeature`: first plan in the cheap-to-expensive order
granting the capability, defaulting to `premium`. -/
def getMinimumPlanForFeature (feature : Capability) : String :=
  match ["free", "basic", "plus", "premium"].find?
      (fun planKey => (getPlanFeatures planKey).searchFilters.get feature) with
  | some planKey => planKey
  | none => "premium"

/-- Names of the members every plain JavaScript object inherits from
`Object.prototype`, which a bracket read `obj[key]` also finds. -/
def objectPrototypeKeys : List String :=
  ["constructor", "hasOwnProperty", "isPrototypeOf", "propertyIsEnumerable",
   "toLocaleString", "toString", "valueOf", "__defineGetter__",
   "__defineSetter__", "__lookupGetter__", "__lookupSetter__", "__proto__"]

/-- Possible results of the JavaScript property read `PLAN_FEATURES[planKey]`:
an own entry for the four tier keys, an inherited `Object.prototype` member
(a function object, hence truthy) for keys such as `toString`, and
`undefined` otherwise. -/
inductive PlanLookup where
  | entry (features : PlanFeatures)
  | inherited (name : String)
  | undefinedValue
deriving Repr, DecidableEq

/-- Truthiness of a looked-up value: `undefined` is falsy, own entries and
inherited function objects are truthy. -/
def PlanLookup.truthy : PlanLookup → Bool
  | .undefinedValue => false
  | _ => true

/-- The JavaScript property read `PLAN_FEATURES[planKey]`, prototype chain
included (the fully faithful version of `PLAN_FEATURES` above, which covers
own properties only). -/
def planFeaturesLookup (planKey : String) : PlanLookup :=
  if planKey = "free" then .entry freePlanFeatures
  else if planKey = "basic" then .entry basicPlanFeatures
  else if planKey = "plus" then .entry plusPlanFeatures
  else if planKey = "premium" then .entry premiumPlanFeatures
  else if planKey ∈ objectPrototypeKeys then .inherited planKey
  else .undefinedValue

/-- The `getPlanFeatures` under the faithful lookup:
`PLAN_FEATURES[planKey] || PLAN_FEATURES.free` falls back to the free tier
only when the lookup is falsy, so an inherited `Object.prototype` member is
returned as-is. -/
def getPlanFeaturesJS (planKey : String) : PlanLookup :=
  let value := planFeaturesLookup planKey
  if value.truthy then value else .entry freePlanFeatures

/-- The `hasFeatureAccess` under the faithful lookup: reading
`plan.searchFilters[feature]` succeeds on a real entry and throws a
`TypeError` when `plan` is an inherited function object (its `searchFilters`
is `undefined`). -/
def hasFeatureAccessJS (planKey : String) (feature : Capability) :
    Except String Bool :=
  match getPlanFeaturesJS planKey with
  | .entry plan => .ok (plan.searchFilters.get feature)
  | .inherited _ => .error "TypeError: cannot read searchFilters of undefined"
  | .undefinedValue => .error "TypeError: cannot read searchFilters of undefined"

/-! ## Data model (`src/src/models/Project.ts`, `src/src/models/Investment.ts`) -/

/-- The `Project.status` values. -/
inductive ProjectStatus where
  | active
  | completed
  | closed
deriving Repr, DecidableEq

/-- The `Investment.status` values. -/
inductive InvestmentStatus where
  | pending
  | completed
  | failed
  | refunded
deriving Repr, DecidableEq

/-- The fields of a `Project` document used by the search engine and the
investment ledger.  Monetary amounts, percentages and the `createdAt`
timestamp are JavaScript numbers, modelled as `ℚ`. -/
structure Project where
  id : Nat
  title : String
  description : String
  category : String
  minInvestment : ℚ
  roiPercent : ℚ
  targetAmount : ℚ
  fundedAmount : ℚ
  totalInvestors : Nat
  durationMonths : Nat
  status : ProjectStatus
  isPremium : Bool
  createdAt : ℚ
deriving Repr, DecidableEq

/-- The fields of an `Investment` document used by the ledger.
`investmentDate` is a millisecond timestamp. -/
structure Investment where
  id : Nat
  userId : Nat
  projectId : Nat
  amount : ℚ
  paymentMethod : String
  expectedReturn : ℚ
  status : InvestmentStatus
  investmentDate : ℚ
  refundReason : Option String
  refundDate : Option ℚ
deriving Repr, DecidableEq

/-- Validators the `ProjectSchema` declares on the fields modelled here
(`src/unnamed/part_000`): title 3–200 characters, description 10–2000,
category required (non-empty), `minInvestment ≥ 0`, `roiPercent` in 0–1000,
`targetAmount ≥ 0`, `fundedAmount ≥ 0` ("Funded amount cannot be negative"),
`durationMonths` in 1–240.  `totalInvestors ≥ 0` holds by the `Nat` type and
the status enum by the `ProjectStatus` type.  Mongoose runs these on every
`save()`. -/
def projectSchemaValid (p : Project) : Bool :=
  3 ≤ p.title.length && p.title.length ≤ 200 &&
  10 ≤ p.description.length && p.description.length ≤ 2000 &&
  p.category ≠ "" &&
  0 ≤ p.minInvestment &&
  0 ≤ p.roiPercent && p.roiPercent ≤ 1000 &&
  0 ≤ p.targetAmount &&
  0 ≤ p.fundedAmount &&
  1 ≤ p.durationMonths && p.durationMonths ≤ 240

/-- Validators the `investmentSchema` declares on the fields modelled here
(`src/unnamed/part_004`): `amount ≥ 0`, `paymentMethod` in the enum
`{stripe, paypal, bank_transfer, wallet}`, `expectedReturn ≥ 0`, and
`refundReason` at most 500 characters.  The status enum holds by the
`InvestmentStatus` type.  Mongoose runs these on `Investment.create` and on
every `save()`. -/
def investmentSchemaValid (i : Investment) : Bool :=
  0 ≤ i.amount &&
  (i.paymentMethod == "stripe" || i.paymentMethod == "paypal" ||
    i.paymentMethod == "bank_transfer" || i.paymentMethod == "wallet") &&
  0 ≤ i.expectedReturn &&
  (match i.refundReason with | none => true | some r => r.length ≤ 500)

/-- A Mongoose schema `ValidationError` as the error handler surfaces it
(`src/src/middlewares/errorHandler.ts`): HTTP 400 with message
`"Validation error"`; the failing validators' own messages (such as
"Funded amount cannot be negative") travel in the `errors` payload, which
this model does not track further. -/
def schemaValidationError : AppError := ⟨"Validation error", 400⟩

/-- The `Project.findById` over the store. -/
def findProject (projects : List Project) (pid : Nat) : Option Project :=
  projects.find? (fun p => p.id == pid)

/-- The `Investment.findById` over the store. -/
def findInvestment (investments : List Investment) (iid : Nat) : Option Investment :=
  investments.find? (fun i => i.id == iid)

/-- The `project.save()`: replace the document with this id in the store. -/
def saveProject (projects : List Project) (p : Project) : List Project :=
  projects.map (fun q => if q.id == p.id then p else q)

/-- The `investment.save()`: replace the document with this id in the store. -/
def saveInvestment (investments : List Investment) (i : Investment) : List Investment :=
  investments.map (fun j => if j.id == i.id then i else j)

/-! ## Investment ledger (`InvestmentController` in
`src/src/services/projectService.ts`) -/

/-- The `"Project ID, amount, and payment method are required"`, HTTP 400. -/
def requiredFieldsError : AppError :=
  ⟨"Project ID, amount, and payment method are required", 400⟩

/-- The `"Project not found"`, HTTP 404. -/
def projectNotFoundError : AppError := ⟨"Project not found", 404⟩

/-- The `"This project is not accepting investments at the moment"`, HTTP 400. -/
def notAcceptingError : AppError :=
  ⟨"This project is not accepting investments at the moment", 400⟩

/-- The `"Minimum investment amount is $..."`, HTTP 400. -/
def belowMinimumError (minInvestment : ℚ) : AppError :=
  ⟨"Minimum investment amount is $" ++ toString minInvestment, 400⟩

/-- The `"This project is fully funded"`, HTTP 400. -/
def fullyFundedError : AppError := ⟨"This project is fully funded", 400⟩

/-- The `"Investment amount exceeds remaining target. Maximum you can invest: $..."`,
HTTP 400; `remaining` is the headroom `targetAmount - fundedAmount`. -/
def exceedsTargetError (remaining : ℚ) : AppError :=
  ⟨"Investment amount exceeds remaining target. Maximum you can invest: $"
    ++ toString remaining, 400⟩

/-- The `"Investment not found"`, HTTP 404. -/
def investmentNotFoundError : AppError := ⟨"Investment not found", 404⟩

/-- The `"You do not have permission to cancel this investment"`, HTTP 403. -/
def cancelPermissionError : AppError :=
  ⟨"You do not have permission to cancel this investment", 403⟩

/-- The `"Investment is already refunded"`, HTTP 400. -/
def alreadyRefundedError : AppError := ⟨"Investment is already refunded", 400⟩

/-- The `"Investments can only be cancelled within 24 hours"`, HTTP 400. -/
def cancelWindowError : AppError :=
  ⟨"Investments can only be cancelled within 24 hours", 400⟩

/-- JavaScript truthiness of an optional number: `undefined`, `null` and `0`
are falsy (`!amount`). -/
def numFalsy : Option ℚ → Bool
  | none => true
  | some x => x == 0

/-- The `InvestmentController.createInvestment`, request-body validation
through `project.save()`: the preconditions in source order, then
`Investment.create` (which runs the investment schema validators and throws
a `ValidationError` on, e.g., a `paymentMethod` outside the enum), then the
project counter mutation and `project.save()` (which runs the project schema
validators).  `projectId`/`amount` are `none` when absent from the body; an
absent `paymentMethod` is the empty string (both are falsy in JS).  `newId`
stands for the id MongoDB generates for the inserted document and `now` for
`new Date()` in milliseconds.  Returns the created investment and the
updated project store.  When `project.save()` throws, the already-inserted
investment stays persisted in the program (a partial commit); the model
returns only the error.  The subsequent `Payment` record write and the
fire-and-forget email/notification dispatch lie outside the modelled ledger
scope (billing integration is out of scope per the specification). -/
def createInvestment (projects : List Project) (userId : Nat)
    (projectId : Option Nat) (amount : Option ℚ) (paymentMethod : String)
    (newId : Nat) (now : ℚ) :
    Except AppError (Investment × List Project) :=
  if projectId.isNone || numFalsy amount || paymentMethod == "" then
    .error requiredFieldsError
  else
    match projectId, amount with
    | some pid, some amt =>
      match findProject projects pid with
      | none => .error projectNotFoundError
      | some project =>
        if project.status ≠ .active then
          .error notAcceptingError
        else if amt < project.minInvestment then
          .error (belowMinimumError project.minInvestment)
        else if project.fundedAmount ≥ project.targetAmount then
          .error fullyFundedError
        else if project.fundedAmount + amt > project.targetAmount then
          .error (exceedsTargetError (project.targetAmount - project.fundedAmount))
        else
          let expectedReturn := amt + amt * project.roiPercent / 100
          let investment : Investment :=
            { id := newId, userId := userId, projectId := pid, amount := amt
              paymentMethod := paymentMethod, expectedReturn := expectedReturn
              status := .completed, investmentDate := now
              refundReason := none, refundDate := none }
          if ¬ investmentSchemaValid investment then
            .error schemaValidationError
          else
            let fundedAmount := project.fundedAmount + amt
            let project :=
              { project with
                  fundedAmount := fundedAmount
                  totalInvestors := project.totalInvestors + 1
                  status :=
                    if fundedAmount ≥ project.targetAmount then .completed
                    else project.status }
            if ¬ projectSchemaValid project then
              .error schemaValidationError
            else
              .ok (investment, saveProject projects project)
    | _, _ => .error requiredFieldsError

/-- JavaScript `reason || 'User requested refund'`: `undefined`, `null` and
the empty string fall back to the default. -/
def refundReasonOrDefault (reason : Option String) : String :=
  match reason with
  | none => "User requested refund"
  | some s => if s == "" then "User requested refund" else s

/-- The three field updates `cancelInvestment` writes on the investment
document: `status = 'refunded'`, `refundReason = reason || default`,
`refundDate = new Date()`. -/
def refundedInvestment (investment : Investment) (reason : Option String)
    (now : ℚ) : Investment :=
  { investment with
      status := .refunded
      refundReason := some (refundReasonOrDefault reason)
      refundDate := some now }

/-- The project mutation `cancelInvestment` performs:
`fundedAmount -= amount` (plain subtraction, no floor),
`totalInvestors = Math.max((totalInvestors || 1) - 1, 0)`, and reopening a
`completed` project to `active`. -/
def cancelProjectUpdate (project : Project) (amount : ℚ) : Project :=
  { project with
      fundedAmount := project.fundedAmount - amount
      totalInvestors :=
        (max ((if project.totalInvestors == 0 then 1
               else (project.totalInvestors : Int)) - 1) 0).toNat
      status := if project.status = .completed then .active
                else project.status }

/-- The `InvestmentController.cancelInvestment`: the preconditions in source
order, then `investment.save()` (which runs the investment schema
validators on the whole refunded document), then the project lookup, the
counter mutation and `project.save()` (which runs the project schema
validators, in particular the `fundedAmount` min-0 one).  `now` is
`Date.now()` in milliseconds.  Returns the refunded investment and the
updated investment and project stores.  When `project.save()` throws, the
already-saved refunded investment stays persisted in the program (a partial
commit); the model returns only the error. -/
def cancelInvestment (investments : List Investment) (projects : List Project)
    (investmentId : Nat) (reason : Option String) (callerId : Nat)
    (isAdmin : Bool) (now : ℚ) :
    Except AppError (Investment × List Investment × List Project) :=
  match findInvestment investments investmentId with
  | none => .error investmentNotFoundError
  | some investment =>
    if investment.userId ≠ callerId ∧ ¬ isAdmin then
      .error cancelPermissionError
    else if investment.status = .refunded then
      .error alreadyRefundedError
    else if ¬ isAdmin ∧ (now - investment.investmentDate) / (1000 * 60 * 60) > 24 then
      .error cancelWindowError
    else
      let investment := refundedInvestment investment reason now
      if ¬ investmentSchemaValid investment then
        .error schemaValidationError
      else
        let investments := saveInvestment investments investment
        match findProject projects investment.projectId with
        | none => .ok (investment, investments, projects)
        | some project =>
          let project := cancelProjectUpdate project investment.amount
          if ¬ projectSchemaValid project then
            .error schemaValidationError
          else
            .ok (investment, investments, saveProject projects project)

/-! ## Project search engine (`ProjectService` in
`src/src/services/projectService.ts`) -/

/-- The `sortBy` values accepted by `advancedSearchSchema`
(`src/src/utils/projectValidation.ts`). -/
inductive SortField where
  | createdAt
  | roiPercent
  | targetAmount
  | fundedAmount
  | progress
  | durationMonths
deriving Repr, DecidableEq

/-- The `sortOrder` values accepted by `advancedSearchSchema`. -/
inductive SortOrder where
  | asc
  | desc
deriving Repr, DecidableEq

/-- Stored columns a Mongo sort specification can name.  `progress` is not a
stored column: the source never puts it into `sortObject`. -/
inductive StoredField where
  | createdAt
  | roiPercent
  | targetAmount
  | fundedAmount
  | durationMonths
deriving Repr, DecidableEq

/-- The stored column a non-`progress` `sortBy` value denotes (`progress`
itself is mapped by the source to the default `createdAt` ordering before
this translation is used). -/
def SortField.toStored : SortField → StoredField
  | .createdAt => .createdAt
  | .roiPercent => .roiPercent
  | .targetAmount => .targetAmount
  | .fundedAmount => .fundedAmount
  | .durationMonths => .durationMonths
  | .progress => .createdAt

/-- The numeric sort key of a stored column. -/
def StoredField.key : StoredField → Project → ℚ
  | .createdAt => Project.createdAt
  | .roiPercent => Project.roiPercent
  | .targetAmount => Project.targetAmount
  | .fundedAmount => Project.fundedAmount
  | .durationMonths => fun p => (p.durationMonths : ℚ)

/-- Mongo `sort` comparison for a `{field: ±1}` sort object. -/
def sortLE (spec : StoredField × SortOrder) (p q : Project) : Bool :=
  match spec.2 with
  | .asc => decide (spec.1.key p ≤ spec.1.key q)
  | .desc => decide (spec.1.key q ≤ spec.1.key p)

/-- Insert into a list sorted by `le` (auxiliary to `sortProjectsBy`). -/
def insertSortedBy (le : Project → Project → Bool) (p : Project) :
    List Project → List Project
  | [] => [p]
  | q :: rest => if le p q then p :: q :: rest else q :: insertSortedBy le p rest

/-- Stable sort of the matched documents, modelling Mongo `.sort(...)`. -/
def sortProjectsBy (le : Project → Project → Bool) : List Project → List Project
  | [] => []
  | p :: rest => insertSortedBy le p (sortProjectsBy le rest)

/-- The `Math.ceil(total / limit)` on non-negative integers. -/
def ceilDiv (total limit : Nat) : Nat := (total + limit - 1) / limit

/-- The `pagination` block of a listing/search response. -/
structure Pagination where
  page : Nat
  limit : Nat
  total : Nat
  totalPages : Nat
deriving Repr, DecidableEq

/-- Response of `getAllProjects` / `getPremiumProjects`. -/
structure ListingResult where
  projects : List Project
  pagination : Pagination
deriving Repr, DecidableEq

/-- Response of `advancedSearch`: items, pagination, and the caller's
resolved plan feature set. -/
structure SearchResult where
  projects : List Project
  pagination : Pagination
  planFeatures : PlanFeatures
deriving Repr, DecidableEq

/-- JavaScript truthiness of an optional string (absent and `""` falsy). -/
def strTruthy : Option String → Bool
  | none => false
  | some s => s ≠ ""

/-- Case-insensitive substring match, modelling the
`{ $regex: search, $options: 'i' }` clauses of the source. -/
def containsCI (hay needle : String) : Bool :=
  (hay.toLower.splitOn needle.toLower).length ≠ 1

/-- A numeric `{$gte: min?, $lte: max?}` range clause, applied on the bounds
actually present. -/
def rangeMatches (mn mx : Option ℚ) (v : ℚ) : Bool :=
  (match mn with | none => true | some a => decide (a ≤ v)) &&
  (match mx with | none => true | some b => decide (v ≤ b))

/-- The category clause of a search filter: single value or `$in` list. -/
inductive CategorySel where
  | single (c : String)
  | multi (cs : List String)
deriving Repr, DecidableEq

/-- The Mongo filter object `advancedSearch` accumulates. -/
structure SearchFilter where
  category : Option CategorySel := none
  status : Option ProjectStatus := none
  text : Option String := none
  minROI : Option ℚ := none
  maxROI : Option ℚ := none
  minAmount : Option ℚ := none
  maxAmount : Option ℚ := none
  minDuration : Option ℚ := none
  maxDuration : Option ℚ := none
deriving Repr, DecidableEq

/-- Whether a project document matches a filter object. -/
def SearchFilter.matches (f : SearchFilter) (p : Project) : Bool :=
  (match f.category with
   | none => true
   | some (.single c) => p.category == c
   | some (.multi cs) => cs.contains p.category) &&
  (match f.status with | none => true | some s => p.status == s) &&
  (match f.text with
   | none => true
   | some s => containsCI p.title s || containsCI p.description s) &&
  rangeMatches f.minROI f.maxROI p.roiPercent &&
  rangeMatches f.minAmount f.maxAmount p.targetAmount &&
  rangeMatches f.minDuration f.maxDuration (p.durationMonths : ℚ)

/-- The `Project.find(filter).sort(s).skip(skip).limit(limit)` together with
`Project.countDocuments(filter)`, packaged as a paginated result. -/
def execQuery (db : List Project) (pred : Project → Bool)
    (spec : StoredField × SortOrder) (page limit : Nat) :
    List Project × Pagination :=
  let filtered := db.filter pred
  let skip := (page - 1) * limit
  (((sortProjectsBy (sortLE spec) filtered).drop skip).take limit,
    { page := page, limit := limit, total := filtered.length
      totalPages := ceilDiv filtered.length limit })

/-- The validated body of `POST /api/projects/search`
(`advancedSearchSchema.parse` output, zod defaults applied). -/
structure AdvancedSearchInput where
  page : Nat := 1
  limit : Nat := 20
  category : Option String := none
  status : Option ProjectStatus := none
  search : Option String := none
  categories : Option (List String) := none
  minROI : Option ℚ := none
  maxROI : Option ℚ := none
  minAmount : Option ℚ := none
  maxAmount : Option ℚ := none
  minDuration : Option ℚ := none
  maxDuration : Option ℚ := none
  sortBy : SortField := .createdAt
  sortOrder : SortOrder := .desc
deriving Repr, DecidableEq

/-- The `"Multiple category selection requires Plus or Premium plan"`, HTTP 403. -/
def multipleCategoriesError : AppError :=
  ⟨"Multiple category selection requires Plus or Premium plan", 403⟩

/-- The `"ROI range filter requires Basic plan or higher"`, HTTP 403. -/
def roiRangeError : AppError := ⟨"ROI range filter requires Basic plan or higher", 403⟩

/-- The `"Amount range filter requires Plus plan or higher"`, HTTP 403. -/
def amountRangeError : AppError := ⟨"Amount range filter requires Plus plan or higher", 403⟩

/-- The `"Duration filter requires Plus plan or higher"`, HTTP 403. -/
def durationFilterError : AppError := ⟨"Duration filter requires Plus plan or higher", 403⟩

/-- The `"Advanced sorting requires Premium plan"`, HTTP 403. -/
def advancedSortError : AppError := ⟨"Advanced sorting requires Premium plan", 403⟩

/-- The three basic-filter blocks of `advancedSearch` (single category,
status, free-text search), each applied only when supplied and
`basicFilters` is granted; no failure path. -/
def applyBasicFilters (category : Option String) (status : Option ProjectStatus)
    (search : Option String) (userPlan : String) : SearchFilter :=
  let filter : SearchFilter := {}
  let filter :=
    if strTruthy category && hasFeatureAccess userPlan .basicFilters then
      { filter with category := some (.single (category.getD "")) }
    else filter
  let filter :=
    match status with
    | some s =>
      if hasFeatureAccess userPlan .basicFilters then { filter with status := some s }
      else filter
    | none => filter
  if strTruthy search && hasFeatureAccess userPlan .basicFilters then
    { filter with text := search }
  else filter

/-- The multiple-categories block of `advancedSearch`: a non-empty
`categories` list needs `multipleCategories`, and replaces the single
category clause by a `$in` clause. -/
def gateMultipleCategories (categories : Option (List String))
    (userPlan : String) (filter : SearchFilter) : Except AppError SearchFilter :=
  match categories with
  | some cs =>
    if cs.length > 0 then
      if ¬ hasFeatureAccess userPlan .multipleCategories then
        Except.error multipleCategoriesError
      else pure { filter with category := some (.multi cs) }
    else pure filter
  | none => pure filter

/-- The ROI-range block of `advancedSearch`: any supplied bound needs
`roiRange`. -/
def gateRoiRange (minROI maxROI : Option ℚ) (userPlan : String)
    (filter : SearchFilter) : Except AppError SearchFilter :=
  if minROI.isSome || maxROI.isSome then
    if ¬ hasFeatureAccess userPlan .roiRange then Except.error roiRangeError
    else pure { filter with minROI := minROI, maxROI := maxROI }
  else pure filter

/-- The amount-range block of `advancedSearch`: any supplied bound needs
`amountRange`. -/
def gateAmountRange (minAmount maxAmount : Option ℚ) (userPlan : String)
    (filter : SearchFilter) : Except AppError SearchFilter :=
  if minAmount.isSome || maxAmount.isSome then
    if ¬ hasFeatureAccess userPlan .amountRange then Except.error amountRangeError
    else pure { filter with minAmount := minAmount, maxAmount := maxAmount }
  else pure filter

/-- The duration block of `advancedSearch`: any supplied bound needs
`durationFilter`. -/
def gateDurationFilter (minDuration maxDuration : Option ℚ) (userPlan : String)
    (filter : SearchFilter) : Except AppError SearchFilter :=
  if minDuration.isSome || maxDuration.isSome then
    if ¬ hasFeatureAccess userPlan .durationFilter then Except.error durationFilterError
    else pure { filter with minDuration := minDuration, maxDuration := maxDuration }
  else pure filter

/-- The sort block of `advancedSearch`: any non-default field/order needs
`advancedSort`; `progress` (not a stored column) falls back to the default
`createdAt` descending sort object. -/
def gateSort (sortBy : SortField) (sortOrder : SortOrder) (userPlan : String) :
    Except AppError (StoredField × SortOrder) :=
  if sortBy ≠ .createdAt ∨ sortOrder ≠ .desc then
    if ¬ hasFeatureAccess userPlan .advancedSort then Except.error advancedSortError
    else if sortBy = .progress then pure (.createdAt, .desc)
    else pure (sortBy.toStored, sortOrder)
  else pure (.createdAt, .desc)

/-- The `ProjectService.advancedSearch`: build the filter dimension by dimension
enforcing the plan gates, build the sort object enforcing the
`advancedSort` gate (with the `progress` fallback), then execute. -/
def advancedSearch (input : AdvancedSearchInput) (userPlan : String)
    (db : List Project) : Except AppError SearchResult := do
  let planFeatures := getPlanFeatures userPlan
  let filter := applyBasicFilters input.category input.status input.search userPlan
  let filter ← gateMultipleCategories input.categories userPlan filter
  let filter ← gateRoiRange input.minROI input.maxROI userPlan filter
  let filter ← gateAmountRange input.minAmount input.maxAmount userPlan filter
  let filter ← gateDurationFilter input.minDuration input.maxDuration userPlan filter
  let sortSpec ← gateSort input.sortBy input.sortOrder userPlan
  let (projects, pagination) :=
    execQuery db filter.matches sortSpec input.page input.limit
  pure { projects := projects, pagination := pagination, planFeatures := planFeatures }

/-- The validated query of the plain listing endpoints
(`projectQuerySchema.parse` output). -/
structure ProjectQuery where
  page : Nat := 1
  limit : Nat := 10
  category : Option String := none
  status : Option ProjectStatus := none
  minROI : Option ℚ := none
  maxROI : Option ℚ := none
  search : Option String := none
deriving Repr, DecidableEq

/-- The filter object of `ProjectService.getAllProjects`:
`{ isPremium: { $ne: true } }` plus the optional basic clauses. -/
def listingMatches (q : ProjectQuery) (p : Project) : Bool :=
  (p.isPremium ≠ true) &&
  (if strTruthy q.category then p.category == q.category.getD "" else true) &&
  (match q.status with | none => true | some s => p.status == s) &&
  (if q.minROI.isSome || q.maxROI.isSome then rangeMatches q.minROI q.maxROI p.roiPercent
   else true) &&
  (if strTruthy q.search then
     containsCI p.title (q.search.getD "") || containsCI p.description (q.search.getD "")
   else true)

/-- The `ProjectService.getAllProjects`: default listing, premium projects
excluded, sorted `createdAt` descending, offset-paginated. -/
def getAllProjects (q : ProjectQuery) (db : List Project) : ListingResult :=
  let (projects, pagination) :=
    execQuery db (listingMatches q) (.createdAt, .desc) q.page q.limit
  { projects := projects, pagination := pagination }

/-- The filter object of `ProjectService.getPremiumProjects`:
`{ isPremium: true }` plus the optional basic clauses. -/
def premiumMatches (q : ProjectQuery) (p : Project) : Bool :=
  (p.isPremium == true) &&
  (if strTruthy q.category then p.category == q.category.getD "" else true) &&
  (match q.status with | none => true | some s => p.status == s) &&
  (if q.minROI.isSome || q.maxROI.isSome then rangeMatches q.minROI q.maxROI p.roiPercent
   else true) &&
  (if strTruthy q.search then
     containsCI p.title (q.search.getD "") || containsCI p.description (q.search.getD "")
   else true)

/-- The `ProjectService.getPremiumProjects`: premium-only listing. -/
def getPremiumProjects (q : ProjectQuery) (db : List Project) : ListingResult :=
  let (projects, pagination) :=
    execQuery db (premiumMatches q) (.createdAt, .desc) q.page q.limit
  { projects := projects, pagination := pagination }

/-- The `"Premium plan required to access premium projects"`, HTTP 403
(`ProjectController.getPremiumProjects`). -/
def premiumPlanRequiredError : AppError :=
  ⟨"Premium plan required to access premium projects", 403⟩

/-- The `ProjectController.getPremiumProjects`: resolve the caller plan
(`req.user?.planKey || 'free'`), reject any plan other than exactly
`premium` with 403, then run the premium listing. -/
def getPremiumProjectsEndpoint (planKey : Option String) (q : ProjectQuery)
    (db : List Project) : Except AppError ListingResult :=
  let userPlan := match planKey with
    | none => "free"
    | some s => if s == "" then "free" else s
  if userPlan ≠ "premium" then .error premiumPlanRequiredError
  else .ok (getPremiumProjects q db)

/-! ## Ledger state machine

Sequences of `createInvestment` / `cancelInvestment` calls against a shared
store, for the ledger consistency invariant.  `nextId` models MongoDB's
generation of a fresh `_id` for each inserted investment document. -/

/-- The shared store the two ledger operations read and write. -/
structure LedgerState where
  projects : List Project
  investments : List Investment
  nextId : Nat
deriving Repr, DecidableEq

/-- One ledger operation with its request-scoped arguments. -/
inductive LedgerOp where
  | invest (userId : Nat) (projectId : Option Nat) (amount : Option ℚ)
      (paymentMethod : String) (now : ℚ)
  | cancel (investmentId : Nat) (reason : Option String) (callerId : Nat)
      (isAdmin : Bool) (now : ℚ)
deriving Repr

/-- Run one ledger operation against the store. -/
def runOp (s : LedgerState) : LedgerOp → Except AppError LedgerState
  | .invest userId projectId amount paymentMethod now =>
    match createInvestment s.projects userId projectId amount paymentMethod
        s.nextId now with
    | .error e => .error e
    | .ok (investment, projects) =>
      .ok { projects := projects, investments := s.investments ++ [investment]
            nextId := s.nextId + 1 }
  | .cancel investmentId reason callerId isAdmin now =>
    match cancelInvestment s.investments s.projects investmentId reason callerId
        isAdmin now with
    | .error e => .error e
    | .ok (_, investments, projects) =>
      .ok { projects := projects, investments := investments, nextId := s.nextId }

/-- Run a sequence of ledger operations; fails as soon as one fails. -/
def runOps (s : LedgerState) : List LedgerOp → Except AppError LedgerState
  | [] => .ok s
  | op :: ops => do runOps (← runOp s op) ops

/-- Sum of the amounts of a project's investments with status `completed`. -/
def completedSum (pid : Nat) (investments : List Investment) : ℚ :=
  (investments.filter
    (fun i => i.projectId == pid && i.status == InvestmentStatus.completed)).foldr
      (fun i acc => i.amount + acc) 0

/-- The contribution of a single investment to a project's completed sum. -/
def contrib (pid : Nat) (i : Investment) : ℚ :=
  if i.projectId = pid ∧ i.status = InvestmentStatus.completed then i.amount else 0

/-- A fresh store: some projects, each with `fundedAmount = 0`, distinct
ids, and no investments yet. -/
def FreshState (s : LedgerState) : Prop :=
  (∀ p ∈ s.projects, p.fundedAmount = 0) ∧
  (s.projects.map Project.id).Nodup ∧
  s.investments = []

/-- The reachable-store invariant maintained by the two ledger operations:
ids are unique (and, for investments, below the id counter), every
investment is `completed` or `refunded`, and every project's funding total
is the sum of its completed investments. -/
def LedgerWF (s : LedgerState) : Prop :=
  (s.projects.map Project.id).Nodup ∧
  (s.investments.map Investment.id).Nodup ∧
  (∀ i ∈ s.investments, i.id < s.nextId) ∧
  (∀ i ∈ s.investments,
    i.status = InvestmentStatus.completed ∨ i.status = InvestmentStatus.refunded) ∧
  (∀ p ∈ s.projects, p.fundedAmount = completedSum p.id s.investments)

/-! ## Concrete instances used by witnesses and counterexamples -/

/-- Concrete project of the specification's worked scenario: minInvestment 100,
roiPercent 20, targetAmount 1000, fundedAmount 900, active. -/
def sampleProject : Project :=
  { id := 1, title := "Solar Farm", description := "A solar farm", category := "energy",
    minInvestment := 100, roiPercent := 20, targetAmount := 1000, fundedAmount := 900,
    totalInvestors := 3, durationMonths := 12, status := .active, isPremium := false,
    createdAt := 5 }

/-- Concrete completed investment of 100 placed at time 0 by user 2, with a
paymentMethod from the schema enum. -/
def sampleInvestment : Investment :=
  { id := 1, userId := 2, projectId := 1, amount := 100,
    paymentMethod := "stripe", expectedReturn := 120, status := .completed,
    investmentDate := 0, refundReason := none, refundDate := none }

/-- Concrete project whose fundedAmount (50) is smaller than the amount (100)
of the investment about to be cancelled. -/
def cexProject : Project :=
  { id := 1, title := "Solar Farm", description := "A solar farm", category := "energy",
    minInvestment := 100, roiPercent := 20, targetAmount := 1000, fundedAmount := 50,
    totalInvestors := 2, durationMonths := 12, status := .active, isPremium := false,
    createdAt := 5 }

/-- Concrete fresh project (fundedAmount 0) for a concrete ledger run. -/
def witnessFreshProject : Project :=
  { id := 1, title := "Wind Farm", description := "A wind farm", category := "energy",
    minInvestment := 100, roiPercent := 20, targetAmount := 1000, fundedAmount := 0,
    totalInvestors := 0, durationMonths := 12, status := .active, isPremium := false,
    createdAt := 5 }

/-- Concrete investment document created by the concrete ledger run. -/
def witnessInvestment : Investment :=
  { id := 0, userId := 7, projectId := 1, amount := 100, paymentMethod := "stripe",
    expectedReturn := 120, status := .completed, investmentDate := 55,
    refundReason := none, refundDate := none }

/-- Concrete project state after investing 100 in `witnessFreshProject`. -/
def witnessProject1 : Project :=
  { witnessFreshProject with fundedAmount := 100, totalInvestors := 1 }

/-! ## Theorems -/

/-- C8 (amended): for every capability `x` and every plan key outside
`{free, basic, plus, premium}` that is also not an `Object.prototype` member
name (the empty string included), the bracket read `PLAN_FEATURES[planKey]`
is `undefined`, so `getPlanFeatures` resolves to the `free` tier's feature
set and `hasFeatureAccess planKey x` agrees with `hasFeatureAccess "free" x`.
The original claim, quantified over all unknown keys, fails at the prototype
member names (see `unknown_plan_prototype_counterexample`). -/
theorem unknown_plan_resolves_to_free (planKey : String)
    (h : planKey ∉ ["free", "basic", "plus", "premium"])
    (hp : planKey ∉ objectPrototypeKeys) :
    getPlanFeaturesJS planKey = getPlanFeaturesJS "free" ∧
    getPlanFeaturesJS planKey = .entry freePlanFeatures ∧
    ∀ x : Capability, hasFeatureAccessJS planKey x = hasFeatureAccessJS "free" x := by
  simp only [List.mem_cons, List.not_mem_nil, or_false, not_or] at h
  obtain ⟨h1, h2, h3, h4⟩ := h
  have hl : planFeaturesLookup planKey = .undefinedValue := by
    simp [planFeaturesLookup, h1, h2, h3, h4, hp]
  have hg : getPlanFeaturesJS planKey = .entry freePlanFeatures := by
    simp [getPlanFeaturesJS, hl, PlanLookup.truthy]
  have hgf : getPlanFeaturesJS "free" = .entry freePlanFeatures := rfl
  refine ⟨hg.trans hgf.symm, hg, fun x => ?_⟩
  simp [hasFeatureAccessJS, hg, hgf]

/-- Witness for `unknown_plan_resolves_to_free`, at the empty plan key. -/
theorem unknown_plan_resolves_to_free_witness :
    getPlanFeaturesJS "" = getPlanFeaturesJS "free" ∧
    getPlanFeaturesJS "" = .entry freePlanFeatures ∧
    ∀ x : Capability, hasFeatureAccessJS "" x = hasFeatureAccessJS "free" x :=
  unknown_plan_resolves_to_free "" (by decide) (by decide)

/-- C8 counterexample: the plan key `toString` is outside
`{free, basic, plus, premium}`, yet `PLAN_FEATURES['toString']` finds the
inherited `Object.prototype.toString` function — a truthy value — so the
`|| PLAN_FEATURES.free` fallback never fires: `getPlanFeatures` does not
resolve to the free tier, and `hasFeatureAccess('toString', x)` throws a
`TypeError` reading `searchFilters` of the function instead of returning
`hasFeatureAccess('free', x)`. -/
theorem unknown_plan_prototype_counterexample :
    ("toString" : String) ∉ ["free", "basic", "plus", "premium"] ∧
    getPlanFeaturesJS "toString" = .inherited "toString" ∧
    getPlanFeaturesJS "toString" ≠ .entry freePlanFeatures ∧
    ∀ x : Capability, hasFeatureAccessJS "toString" x
      = .error "TypeError: cannot read searchFilters of undefined" :=
  ⟨by decide, rfl, by decide, fun x => rfl⟩

/-- C10: a falsy `projectId`, `amount` (absent or zero) or
`paymentMethod` makes `createInvestment` fail with the single
required-fields Validation error (HTTP 400), for every project store — in
particular before the project-existence lookup (the store is universally
quantified, so the result is this Validation error even when the project
does not exist) and before the minimum-investment check (never evaluated
for amount 0). -/
theorem invest_required_fields_first (projects : List Project) (userId : Nat)
    (projectId : Option Nat) (amount : Option ℚ) (paymentMethod : String)
    (newId : Nat) (now : ℚ)
    (h : projectId = none ∨ amount = none ∨ amount = some 0 ∨ paymentMethod = "") :
    createInvestment projects userId projectId amount paymentMethod newId now
      = .error requiredFieldsError := by
  unfold createInvestment
  rcases h with h | h | h | h <;> subst h <;> simp [numFalsy]

/-- Witness for `invest_required_fields_first`: an amount-0 investment in a
project absent from an empty store is rejected with the required-fields
error (not `Project not found`), even though the minimum investment of
every project is unmet vacuously. -/
theorem invest_required_fields_first_witness :
    createInvestment [] 1 (some 7) (some 0) "card" 0 0
      = .error requiredFieldsError :=
  invest_required_fields_first [] 1 (some 7) (some 0) "card" 0 0
    (Or.inr (Or.inr (Or.inl rfl)))

/-- C2: the five invest preconditions are checked in the listed order, the first
violated one producing its own error with the later checks not influencing the
result: missing project gives 404 `projectNotFoundError`; inactive project gives
`notAcceptingError` (whatever the amount); amount below `minInvestment` gives
`belowMinimumError`; a fully funded project gives `fullyFundedError`; and an
amount overshooting the target gives `exceedsTargetError` whose message carries
exactly `targetAmount - fundedAmount`, the remaining headroom. -/
theorem invest_precondition_order (projects : List Project)
    (userId pid newId : Nat) (amt : ℚ) (pm : String) (now : ℚ)
    (hamt : amt ≠ 0) (hpm : pm ≠ "") :
    (findProject projects pid = none →
      createInvestment projects userId (some pid) (some amt) pm newId now
        = .error projectNotFoundError) ∧
    (∀ p, findProject projects pid = some p → p.status ≠ .active →
      createInvestment projects userId (some pid) (some amt) pm newId now
        = .error notAcceptingError) ∧
    (∀ p, findProject projects pid = some p → p.status = .active →
      amt < p.minInvestment →
      createInvestment projects userId (some pid) (some amt) pm newId now
        = .error (belowMinimumError p.minInvestment)) ∧
    (∀ p, findProject projects pid = some p → p.status = .active →
      ¬ amt < p.minInvestment → p.fundedAmount ≥ p.targetAmount →
      createInvestment projects userId (some pid) (some amt) pm newId now
        = .error fullyFundedError) ∧
    (∀ p, findProject projects pid = some p → p.status = .active →
      ¬ amt < p.minInvestment → p.fundedAmount < p.targetAmount →
      p.fundedAmount + amt > p.targetAmount →
      createInvestment projects userId (some pid) (some amt) pm newId now
        = .error (exceedsTargetError (p.targetAmount - p.fundedAmount))) := by
  refine ⟨?_, ?_, ?_, ?_, ?_⟩
  · intro hfind
    simp [createInvestment, numFalsy, hamt, hpm, hfind]
  · intro p hfind hstat
    simp [createInvestment, numFalsy, hamt, hpm, hfind, hstat]
  · intro p hfind hstat hmin
    simp [createInvestment, numFalsy, hamt, hpm, hfind, hstat, hmin]
  · intro p hfind hstat hmin hfull
    simp [createInvestment, numFalsy, hamt, hpm, hfind, hstat, hmin, hfull]
  · intro p hfind hstat hmin hfull hexceed
    simp [createInvestment, numFalsy, hamt, hpm, hfind, hstat, hmin, hfull,
      not_le.mpr hfull, hexceed]


theorem invest_precondition_order_witness :
    createInvestment [sampleProject] 7 (some 1) (some 150) "card" 42 999
      = .error (exceedsTargetError 100) := by
  have h := (invest_precondition_order [sampleProject] 7 1 42 150 "card" 999
    (by norm_num) (by decide)).2.2.2.2 sampleProject rfl rfl
    (by norm_num [sampleProject]) (by norm_num [sampleProject]) (by norm_num [sampleProject])
  have e : sampleProject.targetAmount - sampleProject.fundedAmount = 100 := by
    norm_num [sampleProject]
  rwa [e] at h

/-- Characterization of the project schema validators as a proposition. -/
theorem projectSchemaValid_iff (p : Project) :
    projectSchemaValid p = true ↔
      (3 ≤ p.title.length ∧ p.title.length ≤ 200 ∧
        10 ≤ p.description.length ∧ p.description.length ≤ 2000 ∧
        p.category ≠ "" ∧ 0 ≤ p.minInvestment ∧
        0 ≤ p.roiPercent ∧ p.roiPercent ≤ 1000 ∧
        0 ≤ p.targetAmount ∧ 0 ≤ p.fundedAmount ∧
        1 ≤ p.durationMonths ∧ p.durationMonths ≤ 240) := by
  simp [projectSchemaValid, and_assoc]

/-- Characterization of the investment schema validators as a proposition. -/
theorem investmentSchemaValid_iff (i : Investment) :
    investmentSchemaValid i = true ↔
      (0 ≤ i.amount ∧
        (i.paymentMethod = "stripe" ∨ i.paymentMethod = "paypal" ∨
          i.paymentMethod = "bank_transfer" ∨ i.paymentMethod = "wallet") ∧
        0 ≤ i.expectedReturn ∧
        (∀ r, i.refundReason = some r → r.length ≤ 500)) := by
  cases hr : i.refundReason with
  | none => simp [investmentSchemaValid, hr, and_assoc, or_assoc]
  | some r => simp [investmentSchemaValid, hr, and_assoc, or_assoc]

/-- Schema validity of a project is unaffected by the status and
totalInvestors mutations and needs only the new fundedAmount to be
non-negative. -/
theorem projectSchemaValid_mutation (p : Project) (fa : ℚ) (ti : Nat)
    (st : ProjectStatus) (hp : projectSchemaValid p = true) (hfa : 0 ≤ fa) :
    projectSchemaValid
      { p with fundedAmount := fa, totalInvestors := ti, status := st }
      = true := by
  rw [projectSchemaValid_iff] at hp ⊢
  obtain ⟨h1, h2, h3, h4, h5, h6, h7, h8, h9, -, h11, h12⟩ := hp
  exact ⟨h1, h2, h3, h4, h5, h6, h7, h8, h9, hfa, h11, h12⟩

/-- C3 (counterexample): a request whose paymentMethod is outside the
Investment schema's enum - here "card" - passes all five preconditions and
then fails when `Investment.create` runs the schema validators, surfaced as
the 400 Mongoose Validation error; the same request with "stripe" succeeds,
isolating the paymentMethod as the cause.  So an invest call satisfying the
five preconditions does not always succeed. -/
theorem invest_paymentMethod_enum_counterexample :
    createInvestment [sampleProject] 7 (some 1) (some 100) "card" 42 999
      = .error schemaValidationError ∧
    (createInvestment [sampleProject] 7 (some 1) (some 100) "stripe" 42 999).isOk
      = true := by
  have l1 : ("Solar Farm" : String).length = 10 := rfl
  have l2 : ("A solar farm" : String).length = 12 := rfl
  have c0 : ¬ ("card" : String) = "" := by decide
  have c1 : ¬ ("card" : String) = "stripe" := by decide
  have c2 : ¬ ("card" : String) = "paypal" := by decide
  have c3 : ¬ ("card" : String) = "bank_transfer" := by decide
  have c4 : ¬ ("card" : String) = "wallet" := by decide
  have st0 : ¬ ("stripe" : String) = "" := by decide
  have en0 : ¬ ("energy" : String) = "" := by decide
  constructor
  · norm_num [createInvestment, numFalsy, findProject, sampleProject,
      investmentSchemaValid, c0, c1, c2, c3, c4]
  · norm_num [createInvestment, numFalsy, findProject, saveProject,
      sampleProject, investmentSchemaValid, projectSchemaValid, l1, l2, st0, en0]
    rfl

/-- C3 (amended): an invest call passing all five preconditions whose
paymentMethod lies in the Investment schema's enum and whose project
document is schema-valid succeeds, creating a `completed` investment with
`expectedReturn = amount * (1 + roiPercent / 100)`, adding `amount` to
`fundedAmount`, adding 1 to `totalInvestors`, and setting the project status
to `completed` exactly when the new `fundedAmount` reaches `targetAmount`;
an amount equal to the remaining headroom succeeds and flips the status to
`completed`, while one unit above fails with the exceeds-target Validation
error stating the remaining headroom. -/
theorem invest_success_effects (projects : List Project)
    (userId pid newId : Nat) (pm : String) (now : ℚ) (p : Project)
    (hfind : findProject projects pid = some p)
    (hactive : p.status = .active) (hpm : pm ≠ "")
    (hpmv : (pm == "stripe" || pm == "paypal" || pm == "bank_transfer"
      || pm == "wallet") = true)
    (hpv : projectSchemaValid p = true) :
    (∀ amt : ℚ, amt ≠ 0 → p.minInvestment ≤ amt →
      p.fundedAmount < p.targetAmount → p.fundedAmount + amt ≤ p.targetAmount →
      createInvestment projects userId (some pid) (some amt) pm newId now
        = .ok
          ({ id := newId, userId := userId, projectId := pid, amount := amt,
             paymentMethod := pm,
             expectedReturn := amt * (1 + p.roiPercent / 100),
             status := .completed, investmentDate := now,
             refundReason := none, refundDate := none },
           saveProject projects
             { p with
                 fundedAmount := p.fundedAmount + amt,
                 totalInvestors := p.totalInvestors + 1,
                 status :=
                   if p.fundedAmount + amt ≥ p.targetAmount then .completed
                   else p.status }) ∧
        ((if p.fundedAmount + amt ≥ p.targetAmount then ProjectStatus.completed
          else p.status) = .completed ↔ p.targetAmount ≤ p.fundedAmount + amt)) ∧
    (p.fundedAmount < p.targetAmount →
      p.minInvestment ≤ p.targetAmount - p.fundedAmount →
      createInvestment projects userId (some pid)
          (some (p.targetAmount - p.fundedAmount)) pm newId now
        = .ok
          ({ id := newId, userId := userId, projectId := pid,
             amount := p.targetAmount - p.fundedAmount, paymentMethod := pm,
             expectedReturn := (p.targetAmount - p.fundedAmount) * (1 + p.roiPercent / 100),
             status := .completed, investmentDate := now,
             refundReason := none, refundDate := none },
           saveProject projects
             { p with
                 fundedAmount := p.targetAmount,
                 totalInvestors := p.totalInvestors + 1,
                 status := .completed })) ∧
    (p.fundedAmount < p.targetAmount →
      p.minInvestment ≤ p.targetAmount - p.fundedAmount + 1 →
      createInvestment projects userId (some pid)
          (some (p.targetAmount - p.fundedAmount + 1)) pm newId now
        = .error (exceedsTargetError (p.targetAmount - p.fundedAmount))) := by
  have hmin0 : 0 ≤ p.minInvestment := by
    rw [projectSchemaValid_iff] at hpv
    exact hpv.2.2.2.2.2.1
  have hroi0 : 0 ≤ p.roiPercent := by
    rw [projectSchemaValid_iff] at hpv
    exact hpv.2.2.2.2.2.2.1
  have main : ∀ amt : ℚ, amt ≠ 0 → p.minInvestment ≤ amt →
      p.fundedAmount < p.targetAmount → p.fundedAmount + amt ≤ p.targetAmount →
      createInvestment projects userId (some pid) (some amt) pm newId now
        = .ok
          ({ id := newId, userId := userId, projectId := pid, amount := amt,
             paymentMethod := pm,
             expectedReturn := amt * (1 + p.roiPercent / 100),
             status := .completed, investmentDate := now,
             refundReason := none, refundDate := none },
           saveProject projects
             { p with
                 fundedAmount := p.fundedAmount + amt,
                 totalInvestors := p.totalInvestors + 1,
                 status :=
                   if p.fundedAmount + amt ≥ p.targetAmount then .completed
                   else p.status }) := by
    intro amt hamt hmin hnotfull hroom
    have h1 : ¬ amt < p.minInvestment := not_lt.mpr hmin
    have h2 : ¬ p.fundedAmount ≥ p.targetAmount := not_le.mpr hnotfull
    have h3 : ¬ p.fundedAmount + amt > p.targetAmount := not_lt.mpr hroom
    have hact : ¬ (p.status ≠ ProjectStatus.active) := fun hc => hc hactive
    have hamt0 : 0 ≤ amt := le_trans hmin0 hmin
    have hexp0 : 0 ≤ amt * (1 + p.roiPercent / 100) := by
      have : (0:ℚ) ≤ p.roiPercent / 100 := div_nonneg hroi0 (by norm_num)
      exact mul_nonneg hamt0 (by linarith)
    have hret : amt + amt * p.roiPercent / 100 = amt * (1 + p.roiPercent / 100) := by
      ring
    have hinvv : investmentSchemaValid
        { id := newId, userId := userId, projectId := pid, amount := amt,
          paymentMethod := pm,
          expectedReturn := amt * (1 + p.roiPercent / 100),
          status := .completed, investmentDate := now,
          refundReason := none, refundDate := none } = true := by
      rw [investmentSchemaValid_iff]
      refine ⟨hamt0, ?_, hexp0, by simp⟩
      simpa [or_assoc] using hpmv
    have hfund0 : 0 ≤ p.fundedAmount := by
      rw [projectSchemaValid_iff] at hpv
      exact hpv.2.2.2.2.2.2.2.2.2.1
    have hprojv : ∀ st : ProjectStatus, projectSchemaValid
        { p with fundedAmount := p.fundedAmount + amt,
                 totalInvestors := p.totalInvestors + 1, status := st } = true :=
      fun st => projectSchemaValid_mutation p (p.fundedAmount + amt)
        (p.totalInvestors + 1) st hpv (by linarith)
    simp [createInvestment, numFalsy, hamt, hpm, hfind, hact, h1, h2, h3,
      hret, hinvv, hprojv]
  refine ⟨fun amt hamt hmin hnotfull hroom => ⟨main amt hamt hmin hnotfull hroom, ?_⟩,
    fun hnotfull hmin => ?_, fun hnotfull hmin => ?_⟩
  · constructor
    · intro hc
      by_contra hlt
      rw [if_neg (fun hge => hlt hge)] at hc
      exact absurd (hactive ▸ hc) (by simp)
    · intro hge
      exact if_pos hge
  · have hamt : p.targetAmount - p.fundedAmount ≠ 0 := by
      intro h; apply absurd hnotfull; rw [sub_eq_zero] at h; simp [h]
    have hroom : p.fundedAmount + (p.targetAmount - p.fundedAmount) ≤ p.targetAmount := by
      ring_nf; exact le_refl _
    have h := main (p.targetAmount - p.fundedAmount) hamt hmin hnotfull hroom
    have e1 : p.fundedAmount + (p.targetAmount - p.fundedAmount) = p.targetAmount := by ring
    rw [e1] at h
    simpa using h
  · have hamt : p.targetAmount - p.fundedAmount + 1 ≠ 0 := by
      have : (0:ℚ) < p.targetAmount - p.fundedAmount + 1 := by linarith
      exact ne_of_gt this
    have h1 : ¬ (p.targetAmount - p.fundedAmount + 1) < p.minInvestment := not_lt.mpr hmin
    have h2 : ¬ p.fundedAmount ≥ p.targetAmount := not_le.mpr hnotfull
    have h3 : p.fundedAmount + (p.targetAmount - p.fundedAmount + 1) > p.targetAmount := by
      linarith
    simp [createInvestment, numFalsy, hamt, hpm, hfind, hactive, h1, h2, h3]

/-- Two `Except.error` results with different messages differ. -/
theorem appError_error_ne {α : Type} {e₁ e₂ : AppError}
    (h : e₁.message ≠ e₂.message) :
    (Except.error e₁ : Except AppError α) ≠ .error e₂ := by
  intro hc
  rw [Except.error.injEq] at hc
  exact h (congrArg AppError.message hc)

/-- C5: the cancel preconditions are checked in order: missing investment gives
404; a caller who is neither the owner nor an admin gives 403; an already
refunded investment always gives `alreadyRefundedError` (and through `runOp`
the store is left untouched, so the project is never decremented twice); a
non-admin cancelling more than 24 wall-clock hours after `investmentDate` gives
`cancelWindowError`; admins bypass the window: the window error is never
produced for an admin caller, and an admin cancel of a non-refunded
investment succeeds whenever the documents the operation saves pass the
Mongoose schema validators (which all program-reachable documents do). -/
theorem cancel_precondition_order (investments : List Investment)
    (projects : List Project) (invId : Nat) (reason : Option String)
    (callerId : Nat) (isAdmin : Bool) (now : ℚ) :
    (findInvestment investments invId = none →
      cancelInvestment investments projects invId reason callerId isAdmin now
        = .error investmentNotFoundError) ∧
    (∀ inv, findInvestment investments invId = some inv →
      inv.userId ≠ callerId → isAdmin = false →
      cancelInvestment investments projects invId reason callerId isAdmin now
        = .error cancelPermissionError) ∧
    (∀ inv, findInvestment investments invId = some inv →
      (inv.userId = callerId ∨ isAdmin = true) → inv.status = .refunded →
      cancelInvestment investments projects invId reason callerId isAdmin now
        = .error alreadyRefundedError) ∧
    (∀ inv, findInvestment investments invId = some inv →
      (inv.userId = callerId ∨ isAdmin = true) → inv.status ≠ .refunded →
      isAdmin = false → (now - inv.investmentDate) / (1000 * 60 * 60) > 24 →
      cancelInvestment investments projects invId reason callerId isAdmin now
        = .error cancelWindowError) ∧
    (isAdmin = true →
      cancelInvestment investments projects invId reason callerId isAdmin now
        ≠ .error cancelWindowError) ∧
    (∀ inv, findInvestment investments invId = some inv → isAdmin = true →
      inv.status ≠ .refunded →
      investmentSchemaValid (refundedInvestment inv reason now) = true →
      (∀ q, findProject projects inv.projectId = some q →
        projectSchemaValid (cancelProjectUpdate q inv.amount) = true) →
      (cancelInvestment investments projects invId reason callerId isAdmin now).isOk
        = true) ∧
    (∀ inv (s : LedgerState), findInvestment investments invId = some inv →
      (inv.userId = callerId ∨ isAdmin = true) → inv.status = .refunded →
      s.investments = investments → s.projects = projects →
      runOp s (.cancel invId reason callerId isAdmin now)
        = .error alreadyRefundedError) := by
  have already : ∀ inv, findInvestment investments invId = some inv →
      (inv.userId = callerId ∨ isAdmin = true) → inv.status = .refunded →
      cancelInvestment investments projects invId reason callerId isAdmin now
        = .error alreadyRefundedError := by
    intro inv hfind hperm hstat
    rcases hperm with hperm | hperm <;>
      simp [cancelInvestment, hfind, hperm, hstat]
  refine ⟨?_, ?_, already, ?_, ?_, ?_, ?_⟩
  · intro hfind
    simp [cancelInvestment, hfind]
  · intro inv hfind huser hadm
    simp [cancelInvestment, hfind, huser, hadm]
  · intro inv hfind hperm hstat hadm hlate
    rcases hperm with hperm | hperm
    · simp [cancelInvestment, hfind, hperm, hstat, hadm, hlate]
    · rw [hperm] at hadm; cases hadm
  · intro hadm hcon
    simp only [cancelInvestment] at hcon
    split at hcon
    · exact absurd hcon (appError_error_ne (by decide))
    · split at hcon
      · exact absurd hcon (appError_error_ne (by decide))
      · split at hcon
        · exact absurd hcon (appError_error_ne (by decide))
        · split at hcon
          · rename_i hwin
            exact absurd hadm hwin.1
          · split at hcon
            · exact absurd hcon (appError_error_ne (by decide))
            · split at hcon
              · exact absurd hcon (by simp)
              · split at hcon
                · exact absurd hcon (appError_error_ne (by decide))
                · exact absurd hcon (by simp)
  · intro inv hfind hadm hstat hiv hq
    have hsamea : (refundedInvestment inv reason now).amount = inv.amount := rfl
    have hsamep : (refundedInvestment inv reason now).projectId = inv.projectId := rfl
    simp only [cancelInvestment, hfind, hadm]
    simp [hstat, hiv, hsamea, hsamep]
    split
    · rfl
    · rename_i q hq2
      simp [hq q hq2, Except.isOk, Except.toBool]
  · intro inv s hfind hperm hstat hinv hproj
    have h := already inv hfind hperm hstat
    simp [runOp, hinv, hproj, h]

theorem totalInvestors_decrement (n : Nat) :
    (max ((if n == 0 then 1 else (n : Int)) - 1) 0).toNat = n - 1 := by
  cases n with
  | zero => decide
  | succ k =>
    have e : ((k + 1 : Nat) : Int) - 1 = (k : Int) := by push_cast; ring
    simp [e, max_eq_left (Int.natCast_nonneg k)]

/-- C6 (amended): a cancel call passing all preconditions whose saved documents
pass the Mongoose schema validators sets the investment to `refunded` with
`refundReason` defaulting to "User requested refund" and `refundDate = now`,
decrements the project's `fundedAmount` by the investment amount by plain
subtraction, decrements `totalInvestors` by 1 floored at 0, and reopens a
`completed` project to `active`.  The subtraction is not floored at 0: when it
would drive `fundedAmount` below 0 (impossible in schema-valid reachable
states), `project.save()` rejects via the min-0 validator and the request
fails - see the counterexample. -/
theorem cancel_success_effects (investments : List Investment)
    (projects : List Project) (invId : Nat) (reason : Option String)
    (callerId : Nat) (isAdmin : Bool) (now : ℚ) (inv : Investment) (p : Project)
    (hfind : findInvestment investments invId = some inv)
    (hperm : inv.userId = callerId ∨ isAdmin = true)
    (hstat : inv.status ≠ .refunded)
    (hwin : isAdmin = true ∨ ¬ (now - inv.investmentDate) / (1000 * 60 * 60) > 24)
    (hproj : findProject projects inv.projectId = some p)
    (hiv : investmentSchemaValid (refundedInvestment inv reason now) = true)
    (hpv : projectSchemaValid (cancelProjectUpdate p inv.amount) = true) :
    cancelInvestment investments projects invId reason callerId isAdmin now
      = .ok
        (refundedInvestment inv reason now,
         saveInvestment investments (refundedInvestment inv reason now),
         saveProject projects (cancelProjectUpdate p inv.amount)) ∧
    (cancelProjectUpdate p inv.amount).fundedAmount
      = p.fundedAmount - inv.amount ∧
    (cancelProjectUpdate p inv.amount).totalInvestors = p.totalInvestors - 1 ∧
    (p.status = .completed → (cancelProjectUpdate p inv.amount).status = .active) ∧
    (refundedInvestment inv reason now).status = .refunded ∧
    (refundedInvestment inv reason now).refundDate = some now ∧
    refundReasonOrDefault none = "User requested refund" := by
  refine ⟨?_, rfl, totalInvestors_decrement p.totalInvestors, fun hc => ?_, rfl, rfl, rfl⟩
  · have hsame : (refundedInvestment inv reason now).projectId = inv.projectId := rfl
    have hsamea : (refundedInvestment inv reason now).amount = inv.amount := rfl
    rcases hperm with hperm | hperm
    · rcases hwin with hwin | hwin
      · simp [cancelInvestment, hfind, hperm, hstat, hwin, hsame, hsamea, hproj,
          hiv, hpv]
      · cases hadm : isAdmin <;>
          simp [cancelInvestment, hfind, hperm, hstat, hwin, hadm, hsame, hsamea,
            hproj, hiv, hpv]
    · rcases hwin with hwin | hwin <;>
        simp [cancelInvestment, hfind, hperm, hstat, hwin, hsame, hsamea, hproj,
          hiv, hpv]
  · simp [cancelProjectUpdate, hc]

theorem invest_success_effects_witness :
    createInvestment [sampleProject] 7 (some 1) (some 100) "stripe" 42 999
      = .ok
        ({ id := 42, userId := 7, projectId := 1, amount := 100,
           paymentMethod := "stripe", expectedReturn := 120,
           status := .completed, investmentDate := 999,
           refundReason := none, refundDate := none },
         [{ id := 1, title := "Solar Farm", description := "A solar farm",
            category := "energy", minInvestment := 100, roiPercent := 20,
            targetAmount := 1000, fundedAmount := 1000, totalInvestors := 4,
            durationMonths := 12, status := .completed, isPremium := false,
            createdAt := 5 }]) := by
  have l1 : ("Solar Farm" : String).length = 10 := rfl
  have l2 : ("A solar farm" : String).length = 12 := rfl
  have en0 : ¬ ("energy" : String) = "" := by decide
  have hpv : projectSchemaValid sampleProject = true := by
    norm_num [projectSchemaValid, sampleProject, l1, l2, en0]
  have h := ((invest_success_effects [sampleProject] 7 1 42 "stripe" 999
    sampleProject rfl rfl (by decide) (by decide) hpv).1 100 (by norm_num)
    (by norm_num [sampleProject]) (by norm_num [sampleProject])
    (by norm_num [sampleProject])).1
  norm_num [sampleProject, saveProject] at h
  convert h using 2

theorem cancel_precondition_order_witness :
    cancelInvestment [sampleInvestment] [sampleProject] 1 none 2 false 90000000
      = .error cancelWindowError :=
  (cancel_precondition_order [sampleInvestment] [sampleProject] 1 none 2 false
    90000000).2.2.2.1 sampleInvestment rfl (Or.inl rfl) (by decide) rfl
    (by norm_num [sampleInvestment])


theorem cancel_success_effects_witness :
    cancelInvestment [sampleInvestment] [sampleProject] 1 none 2 false 3600000
      = .ok
        (refundedInvestment sampleInvestment none 3600000,
         saveInvestment [sampleInvestment]
           (refundedInvestment sampleInvestment none 3600000),
         saveProject [sampleProject]
           (cancelProjectUpdate sampleProject sampleInvestment.amount)) := by
  have l1 : ("Solar Farm" : String).length = 10 := rfl
  have l2 : ("A solar farm" : String).length = 12 := rfl
  have lr : ("User requested refund" : String).length = 21 := rfl
  have en0 : ¬ ("energy" : String) = "" := by decide
  have hiv : investmentSchemaValid
      (refundedInvestment sampleInvestment none 3600000) = true := by
    norm_num [investmentSchemaValid, refundedInvestment, refundReasonOrDefault,
      sampleInvestment, lr]
  have hpv : projectSchemaValid
      (cancelProjectUpdate sampleProject sampleInvestment.amount) = true := by
    norm_num [projectSchemaValid, cancelProjectUpdate, sampleProject,
      sampleInvestment, l1, l2, en0]
  exact (cancel_success_effects [sampleInvestment] [sampleProject] 1 none 2 false
    3600000 sampleInvestment sampleProject rfl (Or.inl rfl) (by decide)
    (Or.inr (by norm_num [sampleInvestment])) rfl hiv hpv).1

/-- C6 (counterexample): cancelling a 100 investment against a project with
`fundedAmount = 50` does not floor the decrement at 0 (which would be
`max (50 - 100) 0 = 0`): the in-memory mutation sets -50, the `fundedAmount`
min-0 schema validator rejects it on `project.save()`, and the request fails
with the 400 Mongoose Validation error - so the claim's "decrements
fundedAmount floored at 0" is false of the code. -/
theorem cancel_fundedAmount_not_floored :
    cancelInvestment [sampleInvestment] [cexProject] 1 none 2 false 3600000
      = .error schemaValidationError ∧
    projectSchemaValid (cancelProjectUpdate cexProject sampleInvestment.amount)
      = false ∧
    (cancelProjectUpdate cexProject sampleInvestment.amount).fundedAmount = -50 ∧
    max (cexProject.fundedAmount - sampleInvestment.amount) 0 = 0 := by
  have l1 : ("Solar Farm" : String).length = 10 := rfl
  have l2 : ("A solar farm" : String).length = 12 := rfl
  have lr : ("User requested refund" : String).length = 21 := rfl
  have en0 : ¬ ("energy" : String) = "" := by decide
  have hwin1 : ¬ ((3600000 : ℚ) - 0) / (1000 * 60 * 60) > 24 := by norm_num
  have hwin2 : ¬ (24 : ℚ) < 3600000 / (1000 * 60 * 60) := by norm_num
  refine ⟨?_, ?_, ?_, ?_⟩
  · norm_num [cancelInvestment, findInvestment, findProject, saveInvestment,
      refundedInvestment, cancelProjectUpdate, refundReasonOrDefault,
      investmentSchemaValid, projectSchemaValid, sampleInvestment, cexProject,
      l1, l2, lr, en0, hwin1, hwin2]
    intro hc
    exact absurd hc (by decide)
  · norm_num [projectSchemaValid, cancelProjectUpdate, cexProject,
      sampleInvestment, l1, l2, en0]
  · norm_num [cancelProjectUpdate, cexProject, sampleInvestment]
  · norm_num [cexProject, sampleInvestment]

theorem mem_insertSortedBy {le : Project → Project → Bool} {x a : Project}
    {l : List Project} (h : a ∈ insertSortedBy le x l) : a = x ∨ a ∈ l := by
  induction l with
  | nil => simpa [insertSortedBy] using h
  | cons q rest ih =>
    simp only [insertSortedBy] at h
    by_cases hle : le x q
    · rw [if_pos hle] at h
      simpa using h
    · rw [if_neg hle] at h
      rcases List.mem_cons.mp h with h | h
      · exact Or.inr (h ▸ List.mem_cons_self q rest)
      · rcases ih h with h | h
        · exact Or.inl h
        · exact Or.inr (List.mem_cons_of_mem q h)

theorem mem_sortProjectsBy {le : Project → Project → Bool} {a : Project}
    {l : List Project} (h : a ∈ sortProjectsBy le l) : a ∈ l := by
  induction l with
  | nil => simp [sortProjectsBy] at h
  | cons p rest ih =>
    simp only [sortProjectsBy] at h
    rcases mem_insertSortedBy h with h | h
    · exact h ▸ List.mem_cons_self p rest
    · exact List.mem_cons_of_mem p (ih h)

theorem mem_execQuery {db : List Project} {pred : Project → Bool}
    {spec : StoredField × SortOrder} {page limit : Nat} {p : Project}
    (h : p ∈ (execQuery db pred spec page limit).1) : pred p = true := by
  simp only [execQuery] at h
  have h1 := List.drop_subset _ _ (List.take_subset _ _ h)
  have h2 := mem_sortProjectsBy h1
  exact (List.mem_filter.mp h2).2

/-- C9: the default listing never returns a project flagged `isPremium`; the
premium endpoint rejects every caller whose resolved plan is not exactly
`premium` with the 403 error, accepts plan `premium`, and then returns only
projects flagged `isPremium`. -/
theorem premium_listing_access :
    (∀ (q : ProjectQuery) (db : List Project) (p : Project),
      p ∈ (getAllProjects q db).projects → p.isPremium = false) ∧
    (∀ (planKey : Option String) (q : ProjectQuery) (db : List Project),
      planKey ≠ some "premium" →
      getPremiumProjectsEndpoint planKey q db = .error premiumPlanRequiredError) ∧
    (∀ (q : ProjectQuery) (db : List Project),
      getPremiumProjectsEndpoint (some "premium") q db
        = .ok (getPremiumProjects q db)) ∧
    (∀ (q : ProjectQuery) (db : List Project) (p : Project),
      p ∈ (getPremiumProjects q db).projects → p.isPremium = true) := by
  refine ⟨?_, ?_, ?_, ?_⟩
  · intro q db p h
    have hm : listingMatches q p = true := mem_execQuery h
    simp only [listingMatches, Bool.and_eq_true, decide_eq_true_eq] at hm
    exact Bool.not_eq_true p.isPremium ▸ hm.1.1.1.1
  · intro planKey q db h
    match planKey with
    | none => simp [getPremiumProjectsEndpoint]
    | some s =>
      have hs : s ≠ "premium" := fun hc => h (hc ▸ rfl)
      by_cases he : s = ""
      · simp [getPremiumProjectsEndpoint, he]
      · simp [getPremiumProjectsEndpoint, he, hs]
  · intro q db
    simp [getPremiumProjectsEndpoint]
  · intro q db p h
    have hm : premiumMatches q p = true := mem_execQuery h
    simp only [premiumMatches, Bool.and_eq_true, beq_iff_eq] at hm
    exact hm.1.1.1.1

theorem premium_listing_access_witness :
    sampleProject.isPremium = false ∧
    getPremiumProjectsEndpoint (some "plus") {} []
      = .error premiumPlanRequiredError := by
  constructor
  · exact premium_listing_access.1 {} [sampleProject] sampleProject
      (by simp [getAllProjects, execQuery, listingMatches, sampleProject,
        sortProjectsBy, insertSortedBy])
  · exact premium_listing_access.2.1 (some "plus") {} [] (by simp)

theorem gateMultipleCategories_not_entitled {cs : List String} {userPlan : String}
    {f : SearchFilter} (hlen : cs.length > 0)
    (hc : hasFeatureAccess userPlan .multipleCategories = false) :
    gateMultipleCategories (some cs) userPlan f = .error multipleCategoriesError := by
  simp [gateMultipleCategories, hlen, hc]

theorem gateMultipleCategories_error {cats : Option (List String)}
    {userPlan : String} {f : SearchFilter} {e : AppError}
    (h : gateMultipleCategories cats userPlan f = .error e) :
    e = multipleCategoriesError := by
  match cats with
  | none => simp [gateMultipleCategories, pure, Except.pure] at h
  | some cs =>
    by_cases hlen : cs.length > 0
    · by_cases hc : hasFeatureAccess userPlan .multipleCategories
      · simp [gateMultipleCategories, hlen, hc, pure, Except.pure] at h
      · simp [gateMultipleCategories, hlen, hc] at h
        exact h.symm
    · simp [gateMultipleCategories, hlen, pure, Except.pure] at h

theorem gateMultipleCategories_pass {cats : Option (List String)}
    {userPlan : String} {f : SearchFilter}
    (h : cats = none ∨ cats = some [] ∨
      hasFeatureAccess userPlan .multipleCategories = true) :
    ∃ f', gateMultipleCategories cats userPlan f = .ok f' := by
  rcases h with h | h | h <;> subst_vars
  · exact ⟨f, rfl⟩
  · exact ⟨f, rfl⟩
  · match cats with
    | none => exact ⟨f, rfl⟩
    | some cs =>
      by_cases hlen : cs.length > 0
      · exact ⟨{ f with category := some (.multi cs) },
          by simp [gateMultipleCategories, hlen, h, pure, Except.pure]⟩
      · exact ⟨f, by simp [gateMultipleCategories, hlen, pure, Except.pure]⟩

theorem gateRoiRange_not_entitled {mn mx : Option ℚ} {userPlan : String}
    {f : SearchFilter} (hs : (mn.isSome || mx.isSome) = true)
    (hc : hasFeatureAccess userPlan .roiRange = false) :
    gateRoiRange mn mx userPlan f = .error roiRangeError := by
  simp [gateRoiRange, hs, hc]

theorem gateRoiRange_error {mn mx : Option ℚ} {userPlan : String}
    {f : SearchFilter} {e : AppError}
    (h : gateRoiRange mn mx userPlan f = .error e) : e = roiRangeError := by
  by_cases hs : (mn.isSome || mx.isSome) = true
  · by_cases hc : hasFeatureAccess userPlan .roiRange
    · simp [gateRoiRange, hs, hc, pure, Except.pure] at h
    · simp [gateRoiRange, hs, hc] at h
      exact h.symm
  · simp only [Bool.or_eq_true] at hs
    push_neg at hs
    simp [gateRoiRange, Option.not_isSome_iff_eq_none.mp hs.1,
      Option.not_isSome_iff_eq_none.mp hs.2, pure, Except.pure] at h

theorem gateRoiRange_pass {mn mx : Option ℚ} {userPlan : String}
    {f : SearchFilter}
    (h : (mn = none ∧ mx = none) ∨ hasFeatureAccess userPlan .roiRange = true) :
    ∃ f', gateRoiRange mn mx userPlan f = .ok f' := by
  rcases h with ⟨h1, h2⟩ | h
  · exact ⟨f, by simp [gateRoiRange, h1, h2, pure, Except.pure]⟩
  · by_cases hs : (mn.isSome || mx.isSome) = true
    · exact ⟨{ f with minROI := mn, maxROI := mx },
        by simp [gateRoiRange, hs, h, pure, Except.pure]⟩
    · exact ⟨f, by simp [gateRoiRange, hs, pure, Except.pure]⟩

theorem gateAmountRange_not_entitled {mn mx : Option ℚ} {userPlan : String}
    {f : SearchFilter} (hs : (mn.isSome || mx.isSome) = true)
    (hc : hasFeatureAccess userPlan .amountRange = false) :
    gateAmountRange mn mx userPlan f = .error amountRangeError := by
  simp [gateAmountRange, hs, hc]

theorem gateAmountRange_error {mn mx : Option ℚ} {userPlan : String}
    {f : SearchFilter} {e : AppError}
    (h : gateAmountRange mn mx userPlan f = .error e) : e = amountRangeError := by
  by_cases hs : (mn.isSome || mx.isSome) = true
  · by_cases hc : hasFeatureAccess userPlan .amountRange
    · simp [gateAmountRange, hs, hc, pure, Except.pure] at h
    · simp [gateAmountRange, hs, hc] at h
      exact h.symm
  · simp only [Bool.or_eq_true] at hs
    push_neg at hs
    simp [gateAmountRange, Option.not_isSome_iff_eq_none.mp hs.1,
      Option.not_isSome_iff_eq_none.mp hs.2, pure, Except.pure] at h

theorem gateAmountRange_pass {mn mx : Option ℚ} {userPlan : String}
    {f : SearchFilter}
    (h : (mn = none ∧ mx = none) ∨ hasFeatureAccess userPlan .amountRange = true) :
    ∃ f', gateAmountRange mn mx userPlan f = .ok f' := by
  rcases h with ⟨h1, h2⟩ | h
  · exact ⟨f, by simp [gateAmountRange, h1, h2, pure, Except.pure]⟩
  · by_cases hs : (mn.isSome || mx.isSome) = true
    · exact ⟨{ f with minAmount := mn, maxAmount := mx },
        by simp [gateAmountRange, hs, h, pure, Except.pure]⟩
    · exact ⟨f, by simp [gateAmountRange, hs, pure, Except.pure]⟩

theorem gateDurationFilter_not_entitled {mn mx : Option ℚ} {userPlan : String}
    {f : SearchFilter} (hs : (mn.isSome || mx.isSome) = true)
    (hc : hasFeatureAccess userPlan .durationFilter = false) :
    gateDurationFilter mn mx userPlan f = .error durationFilterError := by
  simp [gateDurationFilter, hs, hc]

theorem gateDurationFilter_error {mn mx : Option ℚ} {userPlan : String}
    {f : SearchFilter} {e : AppError}
    (h : gateDurationFilter mn mx userPlan f = .error e) :
    e = durationFilterError := by
  by_cases hs : (mn.isSome || mx.isSome) = true
  · by_cases hc : hasFeatureAccess userPlan .durationFilter
    · simp [gateDurationFilter, hs, hc, pure, Except.pure] at h
    · simp [gateDurationFilter, hs, hc] at h
      exact h.symm
  · simp only [Bool.or_eq_true] at hs
    push_neg at hs
    simp [gateDurationFilter, Option.not_isSome_iff_eq_none.mp hs.1,
      Option.not_isSome_iff_eq_none.mp hs.2, pure, Except.pure] at h

theorem gateDurationFilter_pass {mn mx : Option ℚ} {userPlan : String}
    {f : SearchFilter}
    (h : (mn = none ∧ mx = none) ∨ hasFeatureAccess userPlan .durationFilter = true) :
    ∃ f', gateDurationFilter mn mx userPlan f = .ok f' := by
  rcases h with ⟨h1, h2⟩ | h
  · exact ⟨f, by simp [gateDurationFilter, h1, h2, pure, Except.pure]⟩
  · by_cases hs : (mn.isSome || mx.isSome) = true
    · exact ⟨{ f with minDuration := mn, maxDuration := mx },
        by simp [gateDurationFilter, hs, h, pure, Except.pure]⟩
    · exact ⟨f, by simp [gateDurationFilter, hs, pure, Except.pure]⟩

theorem gateSort_not_entitled {sb : SortField} {so : SortOrder} {userPlan : String}
    (hs : sb ≠ .createdAt ∨ so ≠ .desc)
    (hc : hasFeatureAccess userPlan .advancedSort = false) :
    gateSort sb so userPlan = .error advancedSortError := by
  simp [gateSort, hs, hc]

/-- C4: each gated filter dimension that is supplied without the matching plan
capability makes `advancedSearch` fail with a 403 Authorization error (never an
`ok` result with the filter dropped); when the violated dimension is the first
one checked, the error is exactly that dimension's error, whose message names
the minimum required plan as computed by `getMinimumPlanForFeature`
(multipleCategories/amountRange/durationFilter: plus; roiRange: basic). -/
theorem advanced_search_filter_gates (input : AdvancedSearchInput)
    (userPlan : String) (db : List Project) :
    (∀ cs, input.categories = some cs → cs.length > 0 →
      hasFeatureAccess userPlan .multipleCategories = false →
      advancedSearch input userPlan db = .error multipleCategoriesError) ∧
    ((input.minROI.isSome || input.maxROI.isSome) = true →
      hasFeatureAccess userPlan .roiRange = false →
      (∃ e, advancedSearch input userPlan db = .error e ∧ e.statusCode = 403) ∧
      ((input.categories = none ∨ input.categories = some [] ∨
          hasFeatureAccess userPlan .multipleCategories = true) →
        advancedSearch input userPlan db = .error roiRangeError)) ∧
    ((input.minAmount.isSome || input.maxAmount.isSome) = true →
      hasFeatureAccess userPlan .amountRange = false →
      (∃ e, advancedSearch input userPlan db = .error e ∧ e.statusCode = 403) ∧
      ((input.categories = none ∨ input.categories = some [] ∨
          hasFeatureAccess userPlan .multipleCategories = true) →
        ((input.minROI = none ∧ input.maxROI = none) ∨
          hasFeatureAccess userPlan .roiRange = true) →
        advancedSearch input userPlan db = .error amountRangeError)) ∧
    ((input.minDuration.isSome || input.maxDuration.isSome) = true →
      hasFeatureAccess userPlan .durationFilter = false →
      (∃ e, advancedSearch input userPlan db = .error e ∧ e.statusCode = 403) ∧
      ((input.categories = none ∨ input.categories = some [] ∨
          hasFeatureAccess userPlan .multipleCategories = true) →
        ((input.minROI = none ∧ input.maxROI = none) ∨
          hasFeatureAccess userPlan .roiRange = true) →
        ((input.minAmount = none ∧ input.maxAmount = none) ∨
          hasFeatureAccess userPlan .amountRange = true) →
        advancedSearch input userPlan db = .error durationFilterError)) ∧
    getMinimumPlanForFeature .multipleCategories = "plus" ∧
    getMinimumPlanForFeature .roiRange = "basic" ∧
    getMinimumPlanForFeature .amountRange = "plus" ∧
    getMinimumPlanForFeature .durationFilter = "plus" ∧
    multipleCategoriesError.statusCode = 403 ∧ roiRangeError.statusCode = 403 ∧
    amountRangeError.statusCode = 403 ∧ durationFilterError.statusCode = 403 := by
  refine ⟨?_, ?_, ?_, ?_, by decide, by decide, by decide, by decide,
    rfl, rfl, rfl, rfl⟩
  · intro cs hcs hlen hc
    have hg := gateMultipleCategories_not_entitled
      (f := applyBasicFilters input.category input.status input.search userPlan)
      hlen hc
    simp [advancedSearch, hcs, hg, Bind.bind, Except.bind]
  · intro hs hc
    constructor
    · cases hmc : gateMultipleCategories input.categories userPlan
          (applyBasicFilters input.category input.status input.search userPlan) with
      | error e1 =>
        refine ⟨e1, by simp [advancedSearch, hmc, Bind.bind, Except.bind], ?_⟩
        rw [gateMultipleCategories_error hmc]; rfl
      | ok f1 =>
        have hg := gateRoiRange_not_entitled (f := f1) hs hc
        exact ⟨roiRangeError,
          by simp [advancedSearch, hmc, hg, Bind.bind, Except.bind], rfl⟩
    · intro hp1
      obtain ⟨f1, hmc⟩ := gateMultipleCategories_pass (f := applyBasicFilters
        input.category input.status input.search userPlan) hp1
      have hg := gateRoiRange_not_entitled (f := f1) hs hc
      simp [advancedSearch, hmc, hg, Bind.bind, Except.bind]
  · intro hs hc
    constructor
    · cases hmc : gateMultipleCategories input.categories userPlan
          (applyBasicFilters input.category input.status input.search userPlan) with
      | error e1 =>
        refine ⟨e1, by simp [advancedSearch, hmc, Bind.bind, Except.bind], ?_⟩
        rw [gateMultipleCategories_error hmc]; rfl
      | ok f1 =>
        cases hroi : gateRoiRange input.minROI input.maxROI userPlan f1 with
        | error e2 =>
          refine ⟨e2,
            by simp [advancedSearch, hmc, hroi, Bind.bind, Except.bind], ?_⟩
          rw [gateRoiRange_error hroi]; rfl
        | ok f2 =>
          have hg := gateAmountRange_not_entitled (f := f2) hs hc
          exact ⟨amountRangeError,
            by simp [advancedSearch, hmc, hroi, hg, Bind.bind, Except.bind], rfl⟩
    · intro hp1 hp2
      obtain ⟨f1, hmc⟩ := gateMultipleCategories_pass (f := applyBasicFilters
        input.category input.status input.search userPlan) hp1
      obtain ⟨f2, hroi⟩ := gateRoiRange_pass (f := f1) hp2
      have hg := gateAmountRange_not_entitled (f := f2) hs hc
      simp [advancedSearch, hmc, hroi, hg, Bind.bind, Except.bind]
  · intro hs hc
    constructor
    · cases hmc : gateMultipleCategories input.categories userPlan
          (applyBasicFilters input.category input.status input.search userPlan) with
      | error e1 =>
        refine ⟨e1, by simp [advancedSearch, hmc, Bind.bind, Except.bind], ?_⟩
        rw [gateMultipleCategories_error hmc]; rfl
      | ok f1 =>
        cases hroi : gateRoiRange input.minROI input.maxROI userPlan f1 with
        | error e2 =>
          refine ⟨e2,
            by simp [advancedSearch, hmc, hroi, Bind.bind, Except.bind], ?_⟩
          rw [gateRoiRange_error hroi]; rfl
        | ok f2 =>
          cases hamt : gateAmountRange input.minAmount input.maxAmount userPlan f2 with
          | error e3 =>
            refine ⟨e3,
              by simp [advancedSearch, hmc, hroi, hamt, Bind.bind, Except.bind], ?_⟩
            rw [gateAmountRange_error hamt]; rfl
          | ok f3 =>
            have hg := gateDurationFilter_not_entitled (f := f3) hs hc
            exact ⟨durationFilterError,
              by simp [advancedSearch, hmc, hroi, hamt, hg, Bind.bind, Except.bind],
              rfl⟩
    · intro hp1 hp2 hp3
      obtain ⟨f1, hmc⟩ := gateMultipleCategories_pass (f := applyBasicFilters
        input.category input.status input.search userPlan) hp1
      obtain ⟨f2, hroi⟩ := gateRoiRange_pass (f := f1) hp2
      obtain ⟨f3, hamt⟩ := gateAmountRange_pass (f := f2) hp3
      have hg := gateDurationFilter_not_entitled (f := f3) hs hc
      simp [advancedSearch, hmc, hroi, hamt, hg, Bind.bind, Except.bind]

theorem advanced_search_filter_gates_witness :
    advancedSearch { minROI := some 10 } "free" [] = .error roiRangeError :=
  ((advanced_search_filter_gates { minROI := some 10 } "free" []).2.1 rfl
    (by decide)).2 (Or.inl rfl)

/-- C7: requesting any sort other than the default (createdAt, descending)
without the `advancedSort` capability makes `advancedSearch` fail with a 403
Authorization error (exactly `advancedSortError` when the filter gates pass);
for a caller holding `advancedSort`, `sortBy = progress` is accepted by the
sort gate but mapped to the default createdAt-descending sort object, so the
result equals that of the default-sort request. -/
theorem advanced_sort_fallback (input : AdvancedSearchInput)
    (userPlan : String) (db : List Project) :
    ((input.sortBy ≠ .createdAt ∨ input.sortOrder ≠ .desc) →
      hasFeatureAccess userPlan .advancedSort = false →
      (∃ e, advancedSearch input userPlan db = .error e ∧ e.statusCode = 403) ∧
      ((input.categories = none ∨ input.categories = some [] ∨
          hasFeatureAccess userPlan .multipleCategories = true) →
        ((input.minROI = none ∧ input.maxROI = none) ∨
          hasFeatureAccess userPlan .roiRange = true) →
        ((input.minAmount = none ∧ input.maxAmount = none) ∨
          hasFeatureAccess userPlan .amountRange = true) →
        ((input.minDuration = none ∧ input.maxDuration = none) ∨
          hasFeatureAccess userPlan .durationFilter = true) →
        advancedSearch input userPlan db = .error advancedSortError)) ∧
    (hasFeatureAccess userPlan .advancedSort = true →
      ∀ o : SortOrder,
        gateSort .progress o userPlan = .ok (.createdAt, .desc) ∧
        advancedSearch { input with sortBy := .progress, sortOrder := o } userPlan db
          = advancedSearch { input with sortBy := .createdAt, sortOrder := .desc }
              userPlan db) := by
  constructor
  · intro hs hc
    constructor
    · cases hmc : gateMultipleCategories input.categories userPlan
          (applyBasicFilters input.category input.status input.search userPlan) with
      | error e1 =>
        refine ⟨e1, by simp [advancedSearch, hmc, Bind.bind, Except.bind], ?_⟩
        rw [gateMultipleCategories_error hmc]; rfl
      | ok f1 =>
        cases hroi : gateRoiRange input.minROI input.maxROI userPlan f1 with
        | error e2 =>
          refine ⟨e2,
            by simp [advancedSearch, hmc, hroi, Bind.bind, Except.bind], ?_⟩
          rw [gateRoiRange_error hroi]; rfl
        | ok f2 =>
          cases hamt : gateAmountRange input.minAmount input.maxAmount userPlan f2 with
          | error e3 =>
            refine ⟨e3,
              by simp [advancedSearch, hmc, hroi, hamt, Bind.bind, Except.bind], ?_⟩
            rw [gateAmountRange_error hamt]; rfl
          | ok f3 =>
            cases hdur : gateDurationFilter input.minDuration input.maxDuration
                userPlan f3 with
            | error e4 =>
              refine ⟨e4, by simp [advancedSearch, hmc, hroi, hamt, hdur,
                Bind.bind, Except.bind], ?_⟩
              rw [gateDurationFilter_error hdur]; rfl
            | ok f4 =>
              have hg := gateSort_not_entitled hs hc
              exact ⟨advancedSortError, by simp [advancedSearch, hmc, hroi, hamt,
                hdur, hg, Bind.bind, Except.bind], rfl⟩
    · intro hp1 hp2 hp3 hp4
      obtain ⟨f1, hmc⟩ := gateMultipleCategories_pass (f := applyBasicFilters
        input.category input.status input.search userPlan) hp1
      obtain ⟨f2, hroi⟩ := gateRoiRange_pass (f := f1) hp2
      obtain ⟨f3, hamt⟩ := gateAmountRange_pass (f := f2) hp3
      obtain ⟨f4, hdur⟩ := gateDurationFilter_pass (f := f3) hp4
      have hg := gateSort_not_entitled hs hc
      simp [advancedSearch, hmc, hroi, hamt, hdur, hg, Bind.bind, Except.bind]
  · intro hc o
    have h1 : gateSort .progress o userPlan = .ok (.createdAt, .desc) := by
      simp [gateSort, hc, pure, Except.pure]
    have h2 : gateSort .createdAt .desc userPlan = .ok (.createdAt, .desc) := by
      simp [gateSort, pure, Except.pure]
    refine ⟨h1, ?_⟩
    simp [advancedSearch, h1, h2]

theorem completedSum_nil (pid : Nat) : completedSum pid [] = 0 := rfl

theorem completedSum_cons (pid : Nat) (i : Investment) (l : List Investment) :
    completedSum pid (i :: l) = contrib pid i + completedSum pid l := by
  simp only [completedSum, contrib, List.filter_cons]
  by_cases h : i.projectId = pid ∧ i.status = InvestmentStatus.completed
  · have hb : (i.projectId == pid && i.status == InvestmentStatus.completed) = true := by
      simp [h.1, h.2]
    simp [hb, h]
  · have hb : (i.projectId == pid && i.status == InvestmentStatus.completed) = false := by
      rcases not_and_or.mp h with h1 | h1 <;> simp [h1]
    simp [hb, h]

theorem completedSum_append (pid : Nat) (l₁ l₂ : List Investment) :
    completedSum pid (l₁ ++ l₂) = completedSum pid l₁ + completedSum pid l₂ := by
  induction l₁ with
  | nil => simp [completedSum_nil]
  | cons i t ih => simp only [List.cons_append, completedSum_cons, ih]; ring

theorem saveInvestment_eq_of_not_mem {l : List Investment} {w : Investment}
    (h : ∀ j ∈ l, j.id ≠ w.id) : saveInvestment l w = l := by
  induction l with
  | nil => rfl
  | cons a t ih =>
    have ha : (a.id == w.id) = false := by
      simpa using h a (List.mem_cons_self a t)
    simp only [saveInvestment, List.map, ha, Bool.false_eq_true, if_false]
    rw [show List.map (fun j => if j.id == w.id then w else j) t
        = saveInvestment t w from rfl,
      ih (fun j hj => h j (List.mem_cons_of_mem a hj))]

theorem saveInvestment_cons (a : Investment) (t : List Investment)
    (w : Investment) :
    saveInvestment (a :: t) w
      = (if (a.id == w.id) = true then w else a) :: saveInvestment t w := rfl

theorem saveProject_cons (a : Project) (t : List Project) (p : Project) :
    saveProject (a :: t) p
      = (if (a.id == p.id) = true then p else a) :: saveProject t p := rfl

theorem completedSum_saveInvestment (pid : Nat) {l : List Investment}
    {v w : Investment} (hnd : (l.map Investment.id).Nodup) (hv : v ∈ l)
    (hw : w.id = v.id) :
    completedSum pid (saveInvestment l w)
      = completedSum pid l - contrib pid v + contrib pid w := by
  induction l with
  | nil => cases hv
  | cons a t ih =>
    have hnd' : (a.id :: t.map Investment.id).Nodup := hnd
    have hnd1 : a.id ∉ t.map Investment.id := (List.nodup_cons.mp hnd').1
    have hnd2 : (t.map Investment.id).Nodup := (List.nodup_cons.mp hnd').2
    rcases List.mem_cons.mp hv with rfl | hv'
    · have ha : (v.id == w.id) = true := by simp [hw]
      have htail : saveInvestment t w = t := by
        refine saveInvestment_eq_of_not_mem (fun j hj he => hnd1 ?_)
        rw [← hw, ← he]
        exact List.mem_map_of_mem Investment.id hj
      rw [saveInvestment_cons, if_pos ha, htail, completedSum_cons,
        completedSum_cons]
      ring
    · have ha : (a.id == w.id) = false := by
        have hmem : v.id ∈ t.map Investment.id :=
          List.mem_map_of_mem Investment.id hv'
        have hne : a.id ≠ w.id := fun he => hnd1 (by rw [he, hw]; exact hmem)
        simpa using hne
      rw [saveInvestment_cons, if_neg (by simp [ha]), completedSum_cons,
        completedSum_cons, ih hnd2 hv']
      ring

theorem map_id_saveProject (l : List Project) (p : Project) :
    (saveProject l p).map Project.id = l.map Project.id := by
  induction l with
  | nil => rfl
  | cons q t ih =>
    rw [saveProject_cons]
    by_cases h : (q.id == p.id) = true
    · rw [if_pos h]
      simp only [List.map, ih]
      rw [show p.id = q.id from (eq_of_beq h).symm]
    · rw [if_neg h]
      simp only [List.map, ih]

theorem map_id_saveInvestment (l : List Investment) (w : Investment) :
    (saveInvestment l w).map Investment.id = l.map Investment.id := by
  induction l with
  | nil => rfl
  | cons a t ih =>
    rw [saveInvestment_cons]
    by_cases h : (a.id == w.id) = true
    · rw [if_pos h]
      simp only [List.map, ih]
      rw [show w.id = a.id from (eq_of_beq h).symm]
    · rw [if_neg h]
      simp only [List.map, ih]

theorem mem_saveProject {l : List Project} {p x : Project}
    (h : x ∈ saveProject l p) : x = p ∨ (x ∈ l ∧ x.id ≠ p.id) := by
  simp only [saveProject, List.mem_map] at h
  obtain ⟨j, hj, hx⟩ := h
  by_cases hc : (j.id == p.id) = true
  · rw [if_pos hc] at hx
    exact Or.inl hx.symm
  · rw [if_neg hc] at hx
    refine Or.inr ⟨hx ▸ hj, ?_⟩
    rw [← hx]
    simpa using hc

theorem mem_saveInvestment {l : List Investment} {w x : Investment}
    (h : x ∈ saveInvestment l w) : x = w ∨ (x ∈ l ∧ x.id ≠ w.id) := by
  simp only [saveInvestment, List.mem_map] at h
  obtain ⟨j, hj, hx⟩ := h
  by_cases hc : (j.id == w.id) = true
  · rw [if_pos hc] at hx
    exact Or.inl hx.symm
  · rw [if_neg hc] at hx
    refine Or.inr ⟨hx ▸ hj, ?_⟩
    rw [← hx]
    simpa using hc

theorem findProject_some {l : List Project} {pid : Nat} {q : Project}
    (h : findProject l pid = some q) : q.id = pid ∧ q ∈ l := by
  unfold findProject at h
  exact ⟨by simpa using List.find?_some h, List.mem_of_find?_eq_some h⟩

theorem findProject_none {l : List Project} {pid : Nat}
    (h : findProject l pid = none) : ∀ q ∈ l, q.id ≠ pid := by
  unfold findProject at h
  intro q hq
  simpa using List.find?_eq_none.mp h q hq

theorem createInvestment_ok {projects : List Project} {userId : Nat}
    {projectId : Option Nat} {amount : Option ℚ} {pm : String} {newId : Nat}
    {now : ℚ} {inv : Investment} {projs : List Project}
    (h : createInvestment projects userId projectId amount pm newId now
      = .ok (inv, projs)) :
    ∃ pid amt p, projectId = some pid ∧ amount = some amt ∧
      findProject projects pid = some p ∧
      inv = { id := newId, userId := userId, projectId := pid, amount := amt,
              paymentMethod := pm,
              expectedReturn := amt + amt * p.roiPercent / 100,
              status := .completed, investmentDate := now,
              refundReason := none, refundDate := none } ∧
      projs = saveProject projects
        { p with
            fundedAmount := p.fundedAmount + amt,
            totalInvestors := p.totalInvestors + 1,
            status := if p.targetAmount ≤ p.fundedAmount + amt
                      then .completed else p.status } := by
  cases projectId with
  | none => simp [createInvestment] at h
  | some pid =>
    cases amount with
    | none => simp [createInvestment, numFalsy] at h
    | some amt =>
      by_cases hz : amt = 0
      · simp [createInvestment, numFalsy, hz] at h
      · by_cases hpm : pm = ""
        · simp [createInvestment, numFalsy, hz, hpm] at h
        · cases hfind : findProject projects pid with
          | none => simp [createInvestment, numFalsy, hz, hpm, hfind] at h
          | some p =>
            by_cases hact : p.status = ProjectStatus.active
            · by_cases hmin : amt < p.minInvestment
              · simp [createInvestment, numFalsy, hz, hpm, hfind, hact, hmin] at h
              · by_cases hfull : p.fundedAmount ≥ p.targetAmount
                · simp [createInvestment, numFalsy, hz, hpm, hfind, hact, hmin,
                    hfull] at h
                · by_cases hexc : p.fundedAmount + amt > p.targetAmount
                  · simp [createInvestment, numFalsy, hz, hpm, hfind, hact, hmin,
                      hfull, hexc] at h
                  · simp [createInvestment, numFalsy, hz, hpm, hfind, hact, hmin,
                      hfull, hexc] at h
                    split at h
                    · simp at h
                    · split at h
                      · rename_i hge
                        split at h
                        · simp at h
                        · simp at h
                          refine ⟨pid, amt, p, rfl, rfl, hfind, h.1.symm, ?_⟩
                          rw [if_pos hge]
                          exact h.2.symm
                      · rename_i hge
                        split at h
                        · simp at h
                        · simp at h
                          refine ⟨pid, amt, p, rfl, rfl, hfind, h.1.symm, ?_⟩
                          rw [if_neg hge, hact]
                          exact h.2.symm
            · simp [createInvestment, numFalsy, hz, hpm, hfind, hact] at h

theorem cancelInvestment_ok {investments : List Investment}
    {projects : List Project} {invId : Nat} {reason : Option String}
    {callerId : Nat} {isAdmin : Bool} {now : ℚ}
    {r : Investment × List Investment × List Project}
    (h : cancelInvestment investments projects invId reason callerId isAdmin now
      = .ok r) :
    ∃ inv, findInvestment investments invId = some inv ∧
      inv.status ≠ .refunded ∧
      r.1 = refundedInvestment inv reason now ∧
      r.2.1 = saveInvestment investments (refundedInvestment inv reason now) ∧
      ((findProject projects inv.projectId = none ∧ r.2.2 = projects) ∨
        ∃ p, findProject projects inv.projectId = some p ∧
          r.2.2 = saveProject projects (cancelProjectUpdate p inv.amount)) := by
  simp only [cancelInvestment] at h
  split at h
  · simp at h
  · rename_i inv hfind
    split at h
    · simp at h
    · split at h
      · simp at h
      · rename_i hperm hstat
        split at h
        · simp at h
        · split at h
          · simp at h
          · split at h
            · rename_i hproj
              injection h with h2
              subst h2
              exact ⟨inv, hfind, hstat, rfl, rfl, Or.inl ⟨hproj, rfl⟩⟩
            · rename_i p hproj
              split at h
              · simp at h
              · injection h with h2
                subst h2
                exact ⟨inv, hfind, hstat, rfl, rfl, Or.inr ⟨p, hproj, rfl⟩⟩

theorem completedSum_singleton (pid : Nat) (i : Investment) :
    completedSum pid [i] = contrib pid i := by
  rw [completedSum_cons, completedSum_nil, add_zero]

theorem LedgerWF_invest {s : LedgerState} {userId : Nat}
    {projectId : Option Nat} {amount : Option ℚ} {pm : String} {now : ℚ}
    {s' : LedgerState} (hWF : LedgerWF s)
    (h : runOp s (.invest userId projectId amount pm now) = .ok s') :
    LedgerWF s' := by
  obtain ⟨hnp, hni, hlt, hst, hfund⟩ := hWF
  simp only [runOp] at h
  cases hc : createInvestment s.projects userId projectId amount pm s.nextId now with
  | error e => rw [hc] at h; simp at h
  | ok r =>
    obtain ⟨inv, projs⟩ := r
    rw [hc] at h
    injection h with h2
    subst h2
    obtain ⟨pid, amt, p, hpid, hamt, hfind, hinv, hprojs⟩ := createInvestment_ok hc
    have hpmem : p ∈ s.projects := (findProject_some hfind).2
    have hpideq : p.id = pid := (findProject_some hfind).1
    subst hinv
    subst hprojs
    refine ⟨?_, ?_, ?_, ?_, ?_⟩
    · show ((saveProject s.projects _).map Project.id).Nodup
      rw [map_id_saveProject]
      exact hnp
    · show ((s.investments ++ [_]).map Investment.id).Nodup
      rw [List.map_append]
      have hnotin : s.nextId ∉ s.investments.map Investment.id := by
        intro hmem
        obtain ⟨j, hj, hje⟩ := List.mem_map.mp hmem
        exact absurd (hje ▸ hlt j hj) (lt_irrefl _)
      simp [List.nodup_append, hni, hnotin]
    · intro i hi
      rcases List.mem_append.mp hi with hi | hi
      · exact Nat.lt_trans (hlt i hi) (Nat.lt_succ_self _)
      · rw [List.mem_singleton.mp hi]
        exact Nat.lt_succ_self _
    · intro i hi
      rcases List.mem_append.mp hi with hi | hi
      · exact hst i hi
      · rw [List.mem_singleton.mp hi]
        exact Or.inl rfl
    · intro q hq
      rcases mem_saveProject hq with rfl | ⟨hqmem, hqne⟩
      · show p.fundedAmount + amt = completedSum p.id (s.investments ++ [_])
        rw [completedSum_append, completedSum_singleton]
        have hcontrib : contrib p.id
            { id := s.nextId, userId := userId, projectId := pid, amount := amt,
              paymentMethod := pm,
              expectedReturn := amt + amt * p.roiPercent / 100,
              status := .completed, investmentDate := now,
              refundReason := none, refundDate := none } = amt := by
          rw [contrib, if_pos ⟨hpideq.symm, rfl⟩]
        rw [hcontrib, hfund p hpmem]
      · rw [completedSum_append, completedSum_singleton]
        have hqne' : q.id ≠ p.id := hqne
        have hcontrib : contrib q.id
            { id := s.nextId, userId := userId, projectId := pid, amount := amt,
              paymentMethod := pm,
              expectedReturn := amt + amt * p.roiPercent / 100,
              status := .completed, investmentDate := now,
              refundReason := none, refundDate := none } = 0 := by
          rw [contrib, if_neg]
          rintro ⟨he, -⟩
          exact hqne' (by rw [← he, hpideq])
        rw [hcontrib, hfund q hqmem, add_zero]

theorem findInvestment_some {l : List Investment} {iid : Nat} {v : Investment}
    (h : findInvestment l iid = some v) : v.id = iid ∧ v ∈ l := by
  unfold findInvestment at h
  exact ⟨by simpa using List.find?_some h, List.mem_of_find?_eq_some h⟩

theorem LedgerWF_cancel {s : LedgerState} {invId : Nat} {reason : Option String}
    {callerId : Nat} {isAdmin : Bool} {now : ℚ} {s' : LedgerState}
    (hWF : LedgerWF s)
    (h : runOp s (.cancel invId reason callerId isAdmin now) = .ok s') :
    LedgerWF s' := by
  obtain ⟨hnp, hni, hlt, hst, hfund⟩ := hWF
  simp only [runOp] at h
  cases hc : cancelInvestment s.investments s.projects invId reason callerId
      isAdmin now with
  | error e => rw [hc] at h; simp at h
  | ok r =>
    rw [hc] at h
    injection h with h2
    subst h2
    obtain ⟨inv, hfind, hstat, hr1, hr21, hproj⟩ := cancelInvestment_ok hc
    have hinvmem : inv ∈ s.investments := (findInvestment_some hfind).2
    have hcompleted : inv.status = .completed := by
      rcases hst inv hinvmem with hcs | hcs
      · exact hcs
      · exact absurd hcs hstat
    have hwid : (refundedInvestment inv reason now).id = inv.id := rfl
    have hwproj : (refundedInvestment inv reason now).projectId = inv.projectId := rfl
    have hwstat : (refundedInvestment inv reason now).status = .refunded := rfl
    have hsum : ∀ qid, completedSum qid
        (saveInvestment s.investments (refundedInvestment inv reason now))
        = completedSum qid s.investments - contrib qid inv
          + contrib qid (refundedInvestment inv reason now) := fun qid =>
      completedSum_saveInvestment qid hni hinvmem hwid
  
    refine ⟨?_, ?_, ?_, ?_, ?_⟩
    · show (r.2.2.map Project.id).Nodup
      rcases hproj with ⟨hpn, hpe⟩ | ⟨p, hps, hpe⟩
      · rw [hpe]; exact hnp
      · rw [hpe, map_id_saveProject]; exact hnp
    · show ((r.2.1).map Investment.id).Nodup
      rw [hr21, map_id_saveInvestment]
      exact hni
    · intro i hi
      rw [hr21] at hi
      rcases mem_saveInvestment hi with rfl | ⟨him, -⟩
      · exact hwid ▸ hlt inv hinvmem
      · exact hlt i him
    · intro i hi
      rw [hr21] at hi
      rcases mem_saveInvestment hi with rfl | ⟨him, -⟩
      · exact Or.inr hwstat
      · exact hst i him
    · intro q hq
      rw [hr21]
      rcases hproj with ⟨hpn, hpe⟩ | ⟨p, hps, hpe⟩
      · rw [hpe] at hq
        rw [hsum]
        have hqne : q.id ≠ inv.projectId := findProject_none hpn q hq
        have c1 : contrib q.id inv = 0 := by
          rw [contrib, if_neg]
          rintro ⟨he, -⟩
          exact hqne he.symm
        have c2 : contrib q.id (refundedInvestment inv reason now) = 0 := by
          rw [contrib, if_neg]
          rintro ⟨he, -⟩
          exact hqne (hwproj ▸ he).symm
        rw [c1, c2, hfund q hq]
        ring
      · rw [hpe] at hq
        have hpideq : p.id = inv.projectId := (findProject_some hps).1
        have hpmem : p ∈ s.projects := (findProject_some hps).2
        rcases mem_saveProject hq with rfl | ⟨hqm, hqne⟩
        · show p.fundedAmount - inv.amount = _
          rw [show (cancelProjectUpdate p inv.amount).id = p.id from rfl, hsum]
          have c1 : contrib p.id inv = inv.amount := by
            rw [contrib, if_pos ⟨hpideq.symm, hcompleted⟩]
          have c2 : contrib p.id (refundedInvestment inv reason now) = 0 := by
            rw [contrib, if_neg]
            rintro ⟨-, hws⟩
            rw [hwstat] at hws
            cases hws
          rw [c1, c2, hfund p hpmem]
          ring
        · rw [hsum]
          have hqnep : q.id ≠ inv.projectId := fun he => hqne (by
            show q.id = (cancelProjectUpdate p inv.amount).id
            rw [show (cancelProjectUpdate p inv.amount).id = p.id from rfl,
              hpideq, ← he])
          have c1 : contrib q.id inv = 0 := by
            rw [contrib, if_neg]
            rintro ⟨he, -⟩
            exact hqnep he.symm
          have c2 : contrib q.id (refundedInvestment inv reason now) = 0 := by
            rw [contrib, if_neg]
            rintro ⟨he, -⟩
            exact hqnep (hwproj ▸ he).symm
          rw [c1, c2, hfund q hqm]
          ring

theorem runOp_preservesWF {s s' : LedgerState} {op : LedgerOp}
    (hWF : LedgerWF s) (h : runOp s op = .ok s') : LedgerWF s' := by
  cases op with
  | invest userId projectId amount pm now => exact LedgerWF_invest hWF h
  | cancel invId reason callerId isAdmin now => exact LedgerWF_cancel hWF h

theorem runOps_preservesWF {ops : List LedgerOp} {s s' : LedgerState}
    (hWF : LedgerWF s) (h : runOps s ops = .ok s') : LedgerWF s' := by
  induction ops generalizing s with
  | nil =>
    simp only [runOps] at h
    injection h with h2
    exact h2 ▸ hWF
  | cons op t ih =>
    simp only [runOps] at h
    cases hc : runOp s op with
    | error e => rw [hc] at h; simp [Bind.bind, Except.bind] at h
    | ok s₁ =>
      rw [hc] at h
      simp only [Bind.bind, Except.bind] at h
      exact ih (runOp_preservesWF hWF hc) h

/-- C1 (ledger consistency): starting from a fresh store (every project
with `fundedAmount = 0`, no investments), after any sequence of successful
`invest`/`cancel` operations every project's `fundedAmount` equals the sum
of the amounts of that project's investments with status `completed` —
each invest adds its amount exactly once (the created investment is
`completed`), each cancel subtracts it exactly once (the investment flips
to `refunded` and leaves the completed sum). -/
theorem ledger_consistency (s₀ : LedgerState) (ops : List LedgerOp)
    (s : LedgerState) (hfresh : FreshState s₀) (hrun : runOps s₀ ops = .ok s) :
    ∀ p ∈ s.projects, p.fundedAmount = completedSum p.id s.investments := by
  obtain ⟨hfa, hnd, hinv⟩ := hfresh
  have hWF : LedgerWF s₀ := by
    refine ⟨hnd, ?_, ?_, ?_, ?_⟩
    · rw [hinv]; exact List.nodup_nil
    · rw [hinv]; intro i hi; cases hi
    · rw [hinv]; intro i hi; cases hi
    · intro p hp; rw [hinv, completedSum_nil]; exact hfa p hp
  exact (runOps_preservesWF hWF hrun).2.2.2.2




theorem ledger_consistency_witness :
    witnessProject1.fundedAmount
      = completedSum witnessProject1.id [witnessInvestment] := by
  have hfresh : FreshState ⟨[witnessFreshProject], [], 0⟩ :=
    ⟨by simp [witnessFreshProject], by simp, rfl⟩
  have st0 : ¬ ("stripe" : String) = "" := by decide
  have en0 : ¬ ("energy" : String) = "" := by decide
  have l1 : ("Wind Farm" : String).length = 9 := rfl
  have l2 : ("A wind farm" : String).length = 11 := rfl
  have hcreate : createInvestment [witnessFreshProject] 7 (some 1) (some 100)
      "stripe" 0 55 = .ok (witnessInvestment, [witnessProject1]) := by
    norm_num [createInvestment, numFalsy, findProject, saveProject,
      investmentSchemaValid, projectSchemaValid, st0, en0, l1, l2,
      witnessFreshProject, witnessInvestment, witnessProject1]
  have hrun : runOps ⟨[witnessFreshProject], [], 0⟩
      [.invest 7 (some 1) (some 100) "stripe" 55]
      = .ok ⟨[witnessProject1], [witnessInvestment], 1⟩ := by
    simp [runOps, runOp, hcreate, Bind.bind, Except.bind, pure, Except.pure]
  exact ledger_consistency ⟨[witnessFreshProject], [], 0⟩
    [.invest 7 (some 1) (some 100) "stripe" 55]
    ⟨[witnessProject1], [witnessInvestment], 1⟩ hfresh hrun
    witnessProject1 (by simp)

theorem advanced_sort_fallback_witness :
    advancedSearch { sortBy := .roiPercent } "free" [] = .error advancedSortError ∧
    advancedSearch { sortBy := .progress, sortOrder := .asc } "premium" []
      = advancedSearch { sortBy := .createdAt, sortOrder := .desc } "premium" [] :=
  ⟨((advanced_sort_fallback { sortBy := .roiPercent } "free" []).1
      (Or.inl (by decide)) (by decide)).2 (Or.inl rfl) (Or.inl ⟨rfl, rfl⟩)
      (Or.inl ⟨rfl, rfl⟩) (Or.inl ⟨rfl, rfl⟩),
    ((advanced_sort_fallback {} "premium" []).2 (by decide) .asc).2⟩
